import Mathlib

/-!
Verification development for the FAT12/FAT16 allocation and directory core
(src/fatfs_fat.c, src/fatfs_node.c).

Two levels of modelling are used.

Byte level (this first part): the disk is a byte-addressable store, the FAT
entry codec (read_fat_entry / write_fat_entry) and the entry accessors
(fat_next_cluster / fat_set_cluster) are translated from src/fatfs_fat.c at
byte granularity, including the FAT12 packing, the unaligned little-endian
16-bit buffer access and the FAT12 sector-border double read/write.

Entry level (later part): the chain-walking operations
(fat_alloc_cluster, fat_free_clusters, fat_expand_file, fat_expand_dir) are
translated from src/fatfs_fat.c over the FAT viewed as a map from entry index
to stored value; the byte-level theorems about fat_set_cluster /
fat_next_cluster justify this view.

Constants and macros used by the sources live in fatfs.h, which is not part
of src/; these are modelled from the spec and carry a note saying so.
-/

set_option maxHeartbeats 1000000

namespace FatFS

/-- Modelled from the spec: SEC_SIZE, the sector size in bytes, a fatfs.h
constant (the spec's end-to-end scenario uses sector = 512 bytes). -/
def SEC_SIZE : Nat := 512

/-- Modelled from the spec: CL_FREE, a FAT entry value of 0 means a free
cluster (fatfs.h constant). -/
def CL_FREE : Nat := 0

/-- Modelled from the spec: CL_ROOT, cluster number 0 denotes the root
directory (fatfs.h constant). -/
def CL_ROOT : Nat := 0

/-- Modelled from the spec: CL_FIRST, the first valid data cluster number, 2
(fatfs.h constant). -/
def CL_FIRST : Nat := 2

/-- The immutable per-mount geometry of struct fatfsmount (fatfs.h): FAT type
flag (FAT16/FAT12 macros), FAT region start sector, stored-value mask,
end-of-chain threshold, one-past-the-last valid cluster number, cluster size
in bytes, sectors per cluster, and the root-directory/data region bounds.
The mutable free_scan cursor is kept in the separate mutable state. -/
structure Fatfsmount where
  fat16 : Bool
  fat_start : Nat
  fat_mask : Nat
  fat_eof : Nat
  last_cluster : Nat
  cluster_size : Nat
  sec_per_cl : Nat
  root_start : Nat
  data_start : Nat

/-- Modelled from the spec: IS_EOFCL, any stored value at or above the
FAT-type-specific end-of-chain threshold terminates a chain (fatfs.h macro;
fat_expand_file uses the inline form next >= fmp->fat_eof). -/
def IS_EOFCL (fmp : Fatfsmount) (cl : Nat) : Bool :=
  decide (fmp.fat_eof ≤ cl)

/-- A byte-addressable disk: address (sector number times SEC_SIZE plus
in-sector offset) to byte value. Sector transfers always move whole sectors
(spec section 6), so a total map models the all-I/O-succeeds assumption. -/
def Disk : Type := Nat → Nat

/-- The per-mount scratch buffer fmp->fat_buf, byte-indexed (two sectors for
the FAT12 border case). -/
def Buf : Type := Nat → Nat

/-- Byte offset of cluster cl's FAT entry inside the FAT region: cl * 2 for
FAT16, cl * 3 / 2 for FAT12, as computed in read_fat_entry, write_fat_entry,
fat_next_cluster and fat_set_cluster (src/fatfs_fat.c). -/
def entryByteOff (fmp : Fatfsmount) (cl : Nat) : Nat :=
  if fmp.fat16 then cl * 2 else cl * 3 / 2

/-- The sector holding (the first byte of) cluster cl's FAT entry:
sec = offset / SEC_SIZE + fmp->fat_start (src/fatfs_fat.c:47-59). -/
def fatSec (fmp : Fatfsmount) (cl : Nat) : Nat :=
  entryByteOff fmp cl / SEC_SIZE + fmp.fat_start

/-- The border flag of read_fat_entry / write_fat_entry: set for a FAT12
entry whose first byte is the last byte of its sector
(src/fatfs_fat.c:56-57, 95-96). -/
def fatBorder (fmp : Fatfsmount) (cl : Nat) : Bool :=
  !fmp.fat16 && decide (entryByteOff fmp cl % SEC_SIZE = SEC_SIZE - 1)

/-- In-buffer offset of cluster cl's entry, as computed in fat_next_cluster
and fat_set_cluster (src/fatfs_fat.c:133-137, 173-177). -/
def entryOff (fmp : Fatfsmount) (cl : Nat) : Nat :=
  entryByteOff fmp cl % SEC_SIZE

/-- Absolute disk byte address of the first byte of cluster cl's FAT entry. -/
def entryAddr (fmp : Fatfsmount) (cl : Nat) : Nat :=
  fmp.fat_start * SEC_SIZE + entryByteOff fmp cl

/-- read_fat_entry (src/fatfs_fat.c:39-77): reads the sector holding the
entry into fat_buf; for a FAT12 border entry it also reads the following
sector into the second half of the buffer. Bytes of the buffer that are not
read keep their previous (stale) content. -/
def read_fat_entry (fmp : Fatfsmount) (d : Disk) (buf : Buf) (cl : Nat) : Buf :=
  let sec := fatSec fmp cl
  let b1 : Buf := fun i => if i < SEC_SIZE then d (sec * SEC_SIZE + i) else buf i
  if fatBorder fmp cl then
    fun i =>
      if SEC_SIZE ≤ i ∧ i < 2 * SEC_SIZE then d ((sec + 1) * SEC_SIZE + (i - SEC_SIZE))
      else b1 i
  else b1

/-- One whole-sector write: sector sec of the disk is replaced by the buffer
contents starting at byte index base. -/
def writeSec (d : Disk) (sec : Nat) (buf : Buf) (base : Nat) : Disk :=
  fun a =>
    if sec * SEC_SIZE ≤ a ∧ a < sec * SEC_SIZE + SEC_SIZE then buf (base + (a - sec * SEC_SIZE))
    else d a

/-- write_fat_entry (src/fatfs_fat.c:82-113): writes the first sector back
from fat_buf; for a FAT12 border entry it also writes the following sector
from the second half of the buffer. -/
def write_fat_entry (fmp : Fatfsmount) (d : Disk) (buf : Buf) (cl : Nat) : Disk :=
  let sec := fatSec fmp cl
  let d1 := writeSec d sec buf 0
  if fatBorder fmp cl then writeSec d1 (sec + 1) buf SEC_SIZE else d1

/-- The unaligned little-endian 16-bit load on the buffer,
val = *((u16 *)(fmp->fat_buf + offset)) (src/fatfs_fat.c:140, 182). -/
def load16 (buf : Buf) (off : Nat) : Nat :=
  buf off % 256 + buf (off + 1) % 256 * 256

/-- The unaligned little-endian 16-bit store on the buffer,
*((u16 *)(buf + offset)) = val (src/fatfs_fat.c:191). -/
def store16 (buf : Buf) (off v : Nat) : Buf :=
  fun i => if i = off then v % 256 else if i = off + 1 then v / 256 % 256 else buf i

/-- fat_next_cluster (src/fatfs_fat.c:121-152): reads the FAT entry, picks up
the 16-bit word at the entry offset and, for FAT12, extracts the correct
12-bit value by parity of the cluster number. Returns the value together
with the buffer state it leaves behind. -/
def fat_next_cluster (fmp : Fatfsmount) (d : Disk) (buf : Buf) (cl : Nat) : Nat × Buf :=
  let b := read_fat_entry fmp d buf cl
  let offset := entryOff fmp cl
  let val := load16 b offset
  let val := if !fmp.fat16 then (if cl % 2 = 1 then val >>> 4 else val &&& 0xfff) else val
  (val, b)

/-- fat_set_cluster (src/fatfs_fat.c:160-196): reads the FAT entry, masks the
new value to the FAT width (assignment to a u16 truncates modulo 2^16), for
FAT12 merges it with the neighbouring nibble preserved from the old 16-bit
word, stores the word and writes the entry back. -/
def fat_set_cluster (fmp : Fatfsmount) (d : Disk) (buf : Buf) (cl next : Nat) : Disk × Buf :=
  let b := read_fat_entry fmp d buf cl
  let offset := entryOff fmp cl
  let v0 := (next &&& fmp.fat_mask) % 65536
  let v1 :=
    if !fmp.fat16 then
      let tmp := load16 b offset
      if cl % 2 = 1 then ((v0 <<< 4) % 65536) ||| (tmp &&& 0xf)
      else v0 ||| (tmp &&& 0xf000)
    else v0
  let b2 := store16 b offset v1
  (write_fat_entry fmp d b2 cl, b2)

/-- The FAT12 parity extraction applied by fat_next_cluster to the raw 16-bit
word (src/fatfs_fat.c:143-148). -/
def extract (fmp : Fatfsmount) (cl v : Nat) : Nat :=
  if !fmp.fat16 then (if cl % 2 = 1 then v >>> 4 else v &&& 0xfff) else v

/-- The 16-bit word written by fat_set_cluster, given the old word tmp found
in the buffer (src/fatfs_fat.c:179-190). -/
def mergeVal (fmp : Fatfsmount) (cl next tmp : Nat) : Nat :=
  let v0 := (next &&& fmp.fat_mask) % 65536
  if !fmp.fat16 then
    if cl % 2 = 1 then ((v0 <<< 4) % 65536) ||| (tmp &&& 0xf)
    else v0 ||| (tmp &&& 0xf000)
  else v0

lemma entryOff_lt (fmp : Fatfsmount) (cl : Nat) : entryOff fmp cl < SEC_SIZE :=
  Nat.mod_lt _ (by decide)

lemma fat16_entryOff_ne (fmp : Fatfsmount) (cl : Nat) (h : fmp.fat16 = true) :
    entryOff fmp cl ≠ SEC_SIZE - 1 := by
  have h2 : entryOff fmp cl = 2 * (cl % 256) := by
    unfold entryOff entryByteOff SEC_SIZE
    rw [h]
    simp only [if_true]
    rw [Nat.mul_comm cl 2]
    have h512 : (512 : Nat) = 2 * 256 := by norm_num
    rw [h512, Nat.mul_mod_mul_left]
  unfold SEC_SIZE
  omega

lemma entryAddr_eq (fmp : Fatfsmount) (cl : Nat) :
    fatSec fmp cl * SEC_SIZE + entryOff fmp cl = entryAddr fmp cl := by
  unfold fatSec entryOff entryAddr
  have h := Nat.div_add_mod (entryByteOff fmp cl) SEC_SIZE
  unfold SEC_SIZE at h ⊢
  omega

lemma border_elim (fmp : Fatfsmount) (cl : Nat) (h : fatBorder fmp cl = true) :
    fmp.fat16 = false ∧ entryOff fmp cl = SEC_SIZE - 1 := by
  unfold fatBorder at h
  unfold entryOff
  cases h16 : fmp.fat16 with
  | false => simp [h16] at h; exact ⟨rfl, h⟩
  | true => simp [h16] at h

lemma not_border_off_ne (fmp : Fatfsmount) (cl : Nat) (h : fatBorder fmp cl = false) :
    entryOff fmp cl ≠ SEC_SIZE - 1 := by
  cases h16 : fmp.fat16 with
  | true => exact fat16_entryOff_ne fmp cl h16
  | false =>
    unfold fatBorder at h
    simp [h16] at h
    unfold entryOff
    exact h

lemma sec_size_pos : 0 < SEC_SIZE := by decide

lemma read_fat_entry_at0 (fmp : Fatfsmount) (d : Disk) (buf : Buf) (cl : Nat) :
    read_fat_entry fmp d buf cl (entryOff fmp cl) = d (entryAddr fmp cl) := by
  have hlt := entryOff_lt fmp cl
  have ha := entryAddr_eq fmp cl
  simp only [read_fat_entry]
  cases hb : fatBorder fmp cl with
  | false =>
    rw [if_neg (show ¬(false = true) by simp)]
    rw [if_pos hlt, ha]
  | true =>
    rw [if_pos (show (true = true) from rfl)]
    rw [if_neg (show ¬(SEC_SIZE ≤ entryOff fmp cl ∧ entryOff fmp cl < 2 * SEC_SIZE) by omega),
      if_pos hlt, ha]

lemma read_fat_entry_at1 (fmp : Fatfsmount) (d : Disk) (buf : Buf) (cl : Nat) :
    read_fat_entry fmp d buf cl (entryOff fmp cl + 1) = d (entryAddr fmp cl + 1) := by
  have hlt := entryOff_lt fmp cl
  have ha := entryAddr_eq fmp cl
  have hpos := sec_size_pos
  simp only [read_fat_entry]
  cases hb : fatBorder fmp cl with
  | false =>
    have hne := not_border_off_ne fmp cl hb
    rw [if_neg (show ¬(false = true) by simp)]
    have h2 : fatSec fmp cl * SEC_SIZE + (entryOff fmp cl + 1) = entryAddr fmp cl + 1 := by
      omega
    rw [if_pos (show entryOff fmp cl + 1 < SEC_SIZE by omega), h2]
  | true =>
    obtain ⟨h16, hoff⟩ := border_elim fmp cl hb
    rw [if_pos (show (true = true) from rfl)]
    have h2 : (fatSec fmp cl + 1) * SEC_SIZE + (entryOff fmp cl + 1 - SEC_SIZE) =
        entryAddr fmp cl + 1 := by
      rw [Nat.succ_mul]
      omega
    rw [if_pos (show SEC_SIZE ≤ entryOff fmp cl + 1 ∧ entryOff fmp cl + 1 < 2 * SEC_SIZE by omega),
      h2]

lemma fat_next_cluster_fst (fmp : Fatfsmount) (d : Disk) (buf : Buf) (cl : Nat) :
    (fat_next_cluster fmp d buf cl).1 =
      extract fmp cl (d (entryAddr fmp cl) % 256 + d (entryAddr fmp cl + 1) % 256 * 256) := by
  simp only [fat_next_cluster, extract, load16, read_fat_entry_at0, read_fat_entry_at1]

lemma fat_set_cluster_1_eq (fmp : Fatfsmount) (d : Disk) (buf : Buf) (cl nxt : Nat) :
    (fat_set_cluster fmp d buf cl nxt).1 =
      write_fat_entry fmp d
        (store16 (read_fat_entry fmp d buf cl) (entryOff fmp cl)
          (mergeVal fmp cl nxt (d (entryAddr fmp cl) % 256 + d (entryAddr fmp cl + 1) % 256 * 256)))
        cl := by
  simp only [fat_set_cluster, mergeVal, load16, read_fat_entry_at0, read_fat_entry_at1]

lemma fat_set_cluster_at0 (fmp : Fatfsmount) (d : Disk) (buf : Buf) (cl nxt : Nat) :
    (fat_set_cluster fmp d buf cl nxt).1 (entryAddr fmp cl) =
      mergeVal fmp cl nxt (d (entryAddr fmp cl) % 256 + d (entryAddr fmp cl + 1) % 256 * 256)
        % 256 := by
  have hlt := entryOff_lt fmp cl
  have ha := entryAddr_eq fmp cl
  have hpos := sec_size_pos
  rw [fat_set_cluster_1_eq]
  simp only [write_fat_entry]
  cases hb : fatBorder fmp cl with
  | false =>
    simp only [Bool.false_eq_true, if_false]
    simp only [writeSec, store16]
    rw [if_pos (show fatSec fmp cl * SEC_SIZE ≤ entryAddr fmp cl ∧
        entryAddr fmp cl < fatSec fmp cl * SEC_SIZE + SEC_SIZE by omega)]
    rw [if_pos (show 0 + (entryAddr fmp cl - fatSec fmp cl * SEC_SIZE) = entryOff fmp cl by omega)]
  | true =>
    obtain ⟨h16, hoff⟩ := border_elim fmp cl hb
    simp only [reduceIte]
    simp only [writeSec, store16]
    rw [if_neg (show ¬((fatSec fmp cl + 1) * SEC_SIZE ≤ entryAddr fmp cl ∧
        entryAddr fmp cl < (fatSec fmp cl + 1) * SEC_SIZE + SEC_SIZE) by
      rw [Nat.succ_mul]; omega)]
    rw [if_pos (show fatSec fmp cl * SEC_SIZE ≤ entryAddr fmp cl ∧
        entryAddr fmp cl < fatSec fmp cl * SEC_SIZE + SEC_SIZE by omega)]
    rw [if_pos (show 0 + (entryAddr fmp cl - fatSec fmp cl * SEC_SIZE) = entryOff fmp cl by omega)]

lemma fat_set_cluster_at1 (fmp : Fatfsmount) (d : Disk) (buf : Buf) (cl nxt : Nat) :
    (fat_set_cluster fmp d buf cl nxt).1 (entryAddr fmp cl + 1) =
      mergeVal fmp cl nxt (d (entryAddr fmp cl) % 256 + d (entryAddr fmp cl + 1) % 256 * 256)
        / 256 % 256 := by
  have hlt := entryOff_lt fmp cl
  have ha := entryAddr_eq fmp cl
  have hpos := sec_size_pos
  rw [fat_set_cluster_1_eq]
  simp only [write_fat_entry]
  cases hb : fatBorder fmp cl with
  | false =>
    have hne := not_border_off_ne fmp cl hb
    simp only [Bool.false_eq_true, if_false]
    simp only [writeSec, store16]
    rw [if_pos (show fatSec fmp cl * SEC_SIZE ≤ entryAddr fmp cl + 1 ∧
        entryAddr fmp cl + 1 < fatSec fmp cl * SEC_SIZE + SEC_SIZE by omega)]
    rw [if_neg (show ¬(0 + (entryAddr fmp cl + 1 - fatSec fmp cl * SEC_SIZE) = entryOff fmp cl) by
      omega)]
    rw [if_pos (show 0 + (entryAddr fmp cl + 1 - fatSec fmp cl * SEC_SIZE) =
        entryOff fmp cl + 1 by omega)]
  | true =>
    obtain ⟨h16, hoff⟩ := border_elim fmp cl hb
    simp only [reduceIte]
    simp only [writeSec, store16]
    rw [if_pos (show (fatSec fmp cl + 1) * SEC_SIZE ≤ entryAddr fmp cl + 1 ∧
        entryAddr fmp cl + 1 < (fatSec fmp cl + 1) * SEC_SIZE + SEC_SIZE by
      rw [Nat.succ_mul]; omega)]
    rw [if_neg (show ¬(SEC_SIZE + (entryAddr fmp cl + 1 - (fatSec fmp cl + 1) * SEC_SIZE) =
        entryOff fmp cl) by rw [Nat.succ_mul]; omega)]
    rw [if_pos (show SEC_SIZE + (entryAddr fmp cl + 1 - (fatSec fmp cl + 1) * SEC_SIZE) =
        entryOff fmp cl + 1 by rw [Nat.succ_mul]; omega)]

lemma fat_set_cluster_frame (fmp : Fatfsmount) (d : Disk) (buf : Buf) (cl nxt a : Nat)
    (h0 : a ≠ entryAddr fmp cl) (h1 : a ≠ entryAddr fmp cl + 1) :
    (fat_set_cluster fmp d buf cl nxt).1 a = d a := by
  have hlt := entryOff_lt fmp cl
  have ha := entryAddr_eq fmp cl
  have hpos := sec_size_pos
  rw [fat_set_cluster_1_eq]
  simp only [write_fat_entry]
  cases hb : fatBorder fmp cl with
  | false =>
    have hne := not_border_off_ne fmp cl hb
    simp only [Bool.false_eq_true, if_false]
    simp only [writeSec, store16, read_fat_entry]
    simp only [hb, Bool.false_eq_true, if_false]
    by_cases hr : fatSec fmp cl * SEC_SIZE ≤ a ∧ a < fatSec fmp cl * SEC_SIZE + SEC_SIZE
    · rw [if_pos hr]
      rw [if_neg (show ¬(0 + (a - fatSec fmp cl * SEC_SIZE) = entryOff fmp cl) by omega)]
      rw [if_neg (show ¬(0 + (a - fatSec fmp cl * SEC_SIZE) = entryOff fmp cl + 1) by omega)]
      rw [if_pos (show 0 + (a - fatSec fmp cl * SEC_SIZE) < SEC_SIZE by omega)]
      have h2 : fatSec fmp cl * SEC_SIZE + (0 + (a - fatSec fmp cl * SEC_SIZE)) = a := by omega
      rw [h2]
    · rw [if_neg hr]
  | true =>
    obtain ⟨h16, hoff⟩ := border_elim fmp cl hb
    simp only [reduceIte]
    simp only [writeSec, store16, read_fat_entry]
    simp only [hb, reduceIte]
    by_cases hr2 : (fatSec fmp cl + 1) * SEC_SIZE ≤ a ∧ a < (fatSec fmp cl + 1) * SEC_SIZE + SEC_SIZE
    · rw [if_pos hr2]
      have hr2b := hr2
      rw [Nat.succ_mul] at hr2b
      rw [if_neg (show ¬(SEC_SIZE + (a - (fatSec fmp cl + 1) * SEC_SIZE) = entryOff fmp cl) by
        rw [Nat.succ_mul]; omega)]
      rw [if_neg (show ¬(SEC_SIZE + (a - (fatSec fmp cl + 1) * SEC_SIZE) = entryOff fmp cl + 1) by
        rw [Nat.succ_mul]; omega)]
      rw [if_pos (show SEC_SIZE ≤ SEC_SIZE + (a - (fatSec fmp cl + 1) * SEC_SIZE) ∧
          SEC_SIZE + (a - (fatSec fmp cl + 1) * SEC_SIZE) < 2 * SEC_SIZE by
        rw [Nat.succ_mul]; omega)]
      have h2 : (fatSec fmp cl + 1) * SEC_SIZE +
          (SEC_SIZE + (a - (fatSec fmp cl + 1) * SEC_SIZE) - SEC_SIZE) = a := by
        rw [Nat.succ_mul]; omega
      rw [h2]
    · rw [if_neg hr2]
      have hr2b : ¬(fatSec fmp cl * SEC_SIZE + SEC_SIZE ≤ a ∧
          a < fatSec fmp cl * SEC_SIZE + SEC_SIZE + SEC_SIZE) := by
        rw [Nat.succ_mul] at hr2; omega
      by_cases hr : fatSec fmp cl * SEC_SIZE ≤ a ∧ a < fatSec fmp cl * SEC_SIZE + SEC_SIZE
      · rw [if_pos hr]
        rw [if_neg (show ¬(0 + (a - fatSec fmp cl * SEC_SIZE) = entryOff fmp cl) by omega)]
        rw [if_neg (show ¬(0 + (a - fatSec fmp cl * SEC_SIZE) = entryOff fmp cl + 1) by omega)]
        rw [if_neg (show ¬(SEC_SIZE ≤ 0 + (a - fatSec fmp cl * SEC_SIZE) ∧
            0 + (a - fatSec fmp cl * SEC_SIZE) < 2 * SEC_SIZE) by omega)]
        rw [if_pos (show 0 + (a - fatSec fmp cl * SEC_SIZE) < SEC_SIZE by omega)]
        have h2 : fatSec fmp cl * SEC_SIZE + (0 + (a - fatSec fmp cl * SEC_SIZE)) = a := by omega
        rw [h2]
      · rw [if_neg hr]


lemma testBit_61440 (j : Nat) : Nat.testBit 61440 j = decide (12 ≤ j ∧ j < 16) := by
  have h : (61440 : Nat) = 15 <<< 12 := by decide
  have h15 : (15 : Nat) = 2 ^ 4 - 1 := by norm_num
  rw [h, Nat.testBit_shiftLeft, h15, Nat.testBit_two_pow_sub_one, Bool.decide_and]
  congr 1
  all_goals rw [decide_eq_decide]
  all_goals omega

lemma lt_two_pow_of_le {x n m : Nat} (h : x < 2 ^ n) (hnm : n ≤ m) : x < 2 ^ m :=
  Nat.lt_of_lt_of_le h (Nat.pow_le_pow_right (by norm_num) hnm)

lemma factA (u t : Nat) : ((u <<< 4) ||| (t &&& 15)) >>> 4 = u := by
  apply Nat.eq_of_testBit_eq
  intro j
  have h15 : (15 : Nat) = 2 ^ 4 - 1 := by norm_num
  simp only [Nat.testBit_shiftRight, Nat.testBit_lor, Nat.testBit_shiftLeft, Nat.testBit_land,
    h15, Nat.testBit_two_pow_sub_one]
  have h1 : 4 + j - 4 = j := by omega
  rw [h1]
  simp [show (4 : Nat) ≤ 4 + j by omega, show ¬(4 + j < 4) by omega]

lemma factB (u t : Nat) (hu : u < 4096) : (u ||| (t &&& 61440)) &&& 4095 = u := by
  apply Nat.eq_of_testBit_eq
  intro j
  have h4095 : (4095 : Nat) = 2 ^ 12 - 1 := by norm_num
  simp only [Nat.testBit_land, Nat.testBit_lor, testBit_61440, h4095,
    Nat.testBit_two_pow_sub_one]
  have hu2 : u < 2 ^ 12 := lt_of_lt_of_eq hu (by norm_num)
  by_cases hj : j < 12
  · simp [hj, show ¬(12 ≤ j ∧ j < 16) by omega]
  · have hbu : u.testBit j = false :=
      Nat.testBit_eq_false_of_lt (lt_two_pow_of_le hu2 (by omega))
    simp [hj, hbu]

lemma factD (u t : Nat) : ((u <<< 4) ||| (t &&& 15)) &&& 15 = t &&& 15 := by
  apply Nat.eq_of_testBit_eq
  intro j
  have h15 : (15 : Nat) = 2 ^ 4 - 1 := by norm_num
  simp only [Nat.testBit_land, Nat.testBit_lor, Nat.testBit_shiftLeft, h15,
    Nat.testBit_two_pow_sub_one]
  by_cases hj : j < 4
  · simp [hj, show ¬(4 ≤ j) by omega]
  · simp [hj]

lemma factE (u t : Nat) (hu : u < 4096) (ht : t < 65536) :
    (u ||| (t &&& 61440)) >>> 12 = t >>> 12 := by
  apply Nat.eq_of_testBit_eq
  intro j
  simp only [Nat.testBit_shiftRight, Nat.testBit_lor, Nat.testBit_land, testBit_61440]
  have hu2 : u < 2 ^ 12 := lt_of_lt_of_eq hu (by norm_num)
  have ht2 : t < 2 ^ 16 := lt_of_lt_of_eq ht (by norm_num)
  have hbu : u.testBit (12 + j) = false :=
    Nat.testBit_eq_false_of_lt (lt_two_pow_of_le hu2 (by omega))
  by_cases hj : j < 4
  · simp [show 12 ≤ 12 + j ∧ 12 + j < 16 by omega, hbu]
  · have hbt : t.testBit (12 + j) = false :=
      Nat.testBit_eq_false_of_lt (lt_two_pow_of_le ht2 (by omega))
    simp [show ¬(12 ≤ 12 + j ∧ 12 + j < 16) by omega, hbu, hbt]

lemma extract_fat16 (fmp : Fatfsmount) (h16 : fmp.fat16 = true) (cl v : Nat) :
    extract fmp cl v = v := by
  unfold extract
  rw [h16, Bool.not_true, if_neg (show ¬(false = true) by simp)]

lemma extract_fat12 (fmp : Fatfsmount) (h16 : fmp.fat16 = false) (cl v : Nat) :
    extract fmp cl v = if cl % 2 = 1 then v >>> 4 else v &&& 0xfff := by
  unfold extract
  rw [h16, Bool.not_false, if_pos (show (true = true) from rfl)]

lemma mergeVal_fat16 (fmp : Fatfsmount) (h16 : fmp.fat16 = true) (cl nxt tmp : Nat) :
    mergeVal fmp cl nxt tmp = (nxt &&& fmp.fat_mask) % 65536 := by
  unfold mergeVal
  rw [h16, Bool.not_true, if_neg (show ¬(false = true) by simp)]

lemma mergeVal_fat12 (fmp : Fatfsmount) (h16 : fmp.fat16 = false) (cl nxt tmp : Nat) :
    mergeVal fmp cl nxt tmp =
      if cl % 2 = 1 then ((((nxt &&& fmp.fat_mask) % 65536) <<< 4) % 65536) ||| (tmp &&& 0xf)
      else ((nxt &&& fmp.fat_mask) % 65536) ||| (tmp &&& 0xf000) := by
  unfold mergeVal
  rw [h16, Bool.not_false, if_pos (show (true = true) from rfl)]

lemma mergeVal_lt (fmp : Fatfsmount) (cl nxt tmp : Nat) :
    mergeVal fmp cl nxt tmp < 65536 := by
  have h1 : (nxt &&& fmp.fat_mask) % 65536 < 65536 := Nat.mod_lt _ (by norm_num)
  have h65536 : (65536 : Nat) = 2 ^ 16 := by norm_num
  cases h16 : fmp.fat16 with
  | true => rw [mergeVal_fat16 fmp h16]; exact h1
  | false =>
    rw [mergeVal_fat12 fmp h16]
    by_cases hodd : cl % 2 = 1
    · rw [if_pos hodd, h65536]
      exact Nat.or_lt_two_pow (lt_of_lt_of_eq (Nat.mod_lt _ (by norm_num)) (by norm_num))
        (Nat.lt_of_le_of_lt Nat.and_le_right (by norm_num))
    · rw [if_neg hodd, h65536]
      exact Nat.or_lt_two_pow (lt_of_lt_of_eq h1 (by norm_num))
        (Nat.lt_of_le_of_lt Nat.and_le_right (by norm_num))

/-- C1: for every cluster number c (in particular every valid one) and every
value v, on both the FAT16 and the FAT12 configuration, fat_set_cluster(c, v)
followed by fat_next_cluster(c) reads back v masked with fat_mask. The
byte-level disk model makes every underlying whole-sector transfer succeed,
which is the I/O assumption of the claim. -/
theorem C1_set_cluster_next_cluster_roundtrip (fmp : Fatfsmount) (d : Disk)
    (b1 b2 : Buf) (cl v : Nat)
    (hcfg : (fmp.fat16 = true ∧ fmp.fat_mask = 65535) ∨
      (fmp.fat16 = false ∧ fmp.fat_mask = 4095)) :
    (fat_next_cluster fmp (fat_set_cluster fmp d b1 cl v).1 b2 cl).1 = v &&& fmp.fat_mask := by
  rw [fat_next_cluster_fst, fat_set_cluster_at0, fat_set_cluster_at1]
  have hm := mergeVal_lt fmp cl v (d (entryAddr fmp cl) % 256 + d (entryAddr fmp cl + 1) % 256 * 256)
  set t := d (entryAddr fmp cl) % 256 + d (entryAddr fmp cl + 1) % 256 * 256 with ht
  set mv := mergeVal fmp cl v t with hmv
  have hrec : mv % 256 % 256 + mv / 256 % 256 % 256 * 256 = mv := by omega
  rw [hrec]
  rcases hcfg with ⟨h16, hmask⟩ | ⟨h16, hmask⟩
  · rw [extract_fat16 fmp h16, hmv, mergeVal_fat16 fmp h16]
    exact Nat.mod_eq_of_lt (Nat.lt_of_le_of_lt Nat.and_le_right (by rw [hmask]; norm_num))
  · have hv0 : (v &&& fmp.fat_mask) % 65536 = v &&& fmp.fat_mask :=
      Nat.mod_eq_of_lt (Nat.lt_of_le_of_lt Nat.and_le_right (by rw [hmask]; norm_num))
    have hvlt : v &&& fmp.fat_mask < 4096 :=
      Nat.lt_of_le_of_lt Nat.and_le_right (by rw [hmask]; norm_num)
    rw [extract_fat12 fmp h16, hmv, mergeVal_fat12 fmp h16, hv0]
    by_cases hodd : cl % 2 = 1
    · rw [if_pos hodd, if_pos hodd]
      have hshift : ((v &&& fmp.fat_mask) <<< 4) % 65536 = (v &&& fmp.fat_mask) <<< 4 := by
        rw [Nat.shiftLeft_eq]
        apply Nat.mod_eq_of_lt
        have h2 : (2 : Nat) ^ 4 = 16 := by norm_num
        rw [h2]
        omega
      rw [hshift]
      have h15 : (0xf : Nat) = 15 := by norm_num
      rw [h15, factA]
    · rw [if_neg hodd, if_neg hodd]
      have h61440 : (0xf000 : Nat) = 61440 := by norm_num
      have h4095 : (0xfff : Nat) = 4095 := by norm_num
      rw [h61440, h4095, factB _ _ hvlt]

lemma and4095_eq_mod (x : Nat) : x &&& 4095 = x % 4096 := by
  have h : (4095 : Nat) = 2 ^ 12 - 1 := by norm_num
  rw [h, Nat.and_pow_two_sub_one_eq_mod]

lemma and15_eq_mod (x : Nat) : x &&& 15 = x % 16 := by
  have h : (15 : Nat) = 2 ^ 4 - 1 := by norm_num
  rw [h, Nat.and_pow_two_sub_one_eq_mod]

/-- C4: on a FAT12 volume, fat_set_cluster on cluster c leaves the 12-bit
value read back for each adjacent cluster (c+1, and c-1 when c has a
predecessor) unchanged. The statement covers every cluster c, in particular
the pairs whose three packed bytes straddle a sector boundary (the border
read/write path of the codec). -/
theorem C4_fat12_neighbor_isolation (fmp : Fatfsmount) (d : Disk) (b1 b2 b3 : Buf)
    (c v : Nat) (h16 : fmp.fat16 = false) (hmask : fmp.fat_mask = 4095) :
    (fat_next_cluster fmp (fat_set_cluster fmp d b1 c v).1 b2 (c + 1)).1 =
        (fat_next_cluster fmp d b3 (c + 1)).1 ∧
      (1 ≤ c →
        (fat_next_cluster fmp (fat_set_cluster fmp d b1 c v).1 b2 (c - 1)).1 =
          (fat_next_cluster fmp d b3 (c - 1)).1) := by
  have hA : ∀ n, entryAddr fmp n = fmp.fat_start * SEC_SIZE + n * 3 / 2 := by
    intro n
    unfold entryAddr entryByteOff
    rw [h16, if_neg (show ¬(false = true) by simp)]
  have htlt : d (entryAddr fmp c) % 256 + d (entryAddr fmp c + 1) % 256 * 256 < 65536 := by
    omega
  have hmlt := mergeVal_lt fmp c v
    (d (entryAddr fmp c) % 256 + d (entryAddr fmp c + 1) % 256 * 256)
  have hult : v &&& fmp.fat_mask < 4096 :=
    Nat.lt_of_le_of_lt Nat.and_le_right (by rw [hmask]; norm_num)
  have hv0 : (v &&& fmp.fat_mask) % 65536 = v &&& fmp.fat_mask :=
    Nat.mod_eq_of_lt (by omega)
  by_cases hodd : c % 2 = 1
  · -- c odd: the write touches bytes A(c) and A(c)+1 = A(c+1) - 1
    constructor
    · -- neighbour c + 1 is even and lives at bytes A(c)+2, A(c)+3: untouched
      rw [fat_next_cluster_fst, fat_next_cluster_fst]
      rw [fat_set_cluster_frame fmp d b1 c v (entryAddr fmp (c + 1))
        (by rw [hA, hA]; omega) (by rw [hA, hA]; omega)]
      rw [fat_set_cluster_frame fmp d b1 c v (entryAddr fmp (c + 1) + 1)
        (by rw [hA, hA]; omega) (by rw [hA, hA]; omega)]
    · -- neighbour c - 1 is even and shares byte A(c) (its high nibble)
      intro hc1
      rw [fat_next_cluster_fst, fat_next_cluster_fst]
      have haddr : entryAddr fmp (c - 1) + 1 = entryAddr fmp c := by
        rw [hA, hA]; omega
      rw [fat_set_cluster_frame fmp d b1 c v (entryAddr fmp (c - 1))
        (by rw [hA, hA]; omega) (by rw [hA, hA]; omega)]
      rw [haddr, fat_set_cluster_at0]
      -- the written word keeps the low nibble of the old word
      have hDfact := factD (v &&& fmp.fat_mask)
        (d (entryAddr fmp c) % 256 + d (entryAddr fmp c + 1) % 256 * 256)
      have hshift : ((v &&& fmp.fat_mask) <<< 4) % 65536 = (v &&& fmp.fat_mask) <<< 4 := by
        rw [Nat.shiftLeft_eq]
        apply Nat.mod_eq_of_lt
        have h2 : (2 : Nat) ^ 4 = 16 := by norm_num
        rw [h2]
        omega
      have hmv : mergeVal fmp c v (d (entryAddr fmp c) % 256 + d (entryAddr fmp c + 1) % 256 * 256)
          % 16 =
          (d (entryAddr fmp c) % 256 + d (entryAddr fmp c + 1) % 256 * 256) % 16 := by
        rw [mergeVal_fat12 fmp h16, if_pos hodd, hv0, hshift]
        rw [← and15_eq_mod, ← and15_eq_mod]
        have h15 : (0xf : Nat) = 15 := by norm_num
        rw [h15]
        exact hDfact
      rw [extract_fat12 fmp h16, extract_fat12 fmp h16]
      rw [if_neg (show ¬((c - 1) % 2 = 1) by omega), if_neg (show ¬((c - 1) % 2 = 1) by omega)]
      rw [and4095_eq_mod, and4095_eq_mod]
      omega
  · -- c even: the write touches bytes A(c) and A(c)+1 = A(c+1)
    have hc0 : c % 2 = 0 := by omega
    constructor
    · -- neighbour c + 1 is odd and shares byte A(c)+1 (its low nibble)
      rw [fat_next_cluster_fst, fat_next_cluster_fst]
      have haddr : entryAddr fmp (c + 1) = entryAddr fmp c + 1 := by
        rw [hA, hA]; omega
      rw [haddr, fat_set_cluster_at1]
      rw [fat_set_cluster_frame fmp d b1 c v (entryAddr fmp c + 1 + 1)
        (by omega) (by omega)]
      -- the written word keeps the high nibble (bits 12-15) of the old word
      have hEfact := factE (v &&& fmp.fat_mask)
        (d (entryAddr fmp c) % 256 + d (entryAddr fmp c + 1) % 256 * 256) hult htlt
      rw [Nat.shiftRight_eq_div_pow, Nat.shiftRight_eq_div_pow] at hEfact
      norm_num at hEfact
      have hmv : mergeVal fmp c v (d (entryAddr fmp c) % 256 + d (entryAddr fmp c + 1) % 256 * 256)
          / 4096 =
          (d (entryAddr fmp c) % 256 + d (entryAddr fmp c + 1) % 256 * 256) / 4096 := by
        rw [mergeVal_fat12 fmp h16, if_neg (show ¬(c % 2 = 1) by omega), hv0]
        have h61440 : (0xf000 : Nat) = 61440 := by norm_num
        rw [h61440]
        exact hEfact
      rw [extract_fat12 fmp h16, extract_fat12 fmp h16]
      rw [if_pos (show (c + 1) % 2 = 1 by omega), if_pos (show (c + 1) % 2 = 1 by omega)]
      rw [Nat.shiftRight_eq_div_pow, Nat.shiftRight_eq_div_pow]
      norm_num
      omega
    · -- neighbour c - 1 is odd and lives at bytes A(c)-2, A(c)-1: untouched
      intro hc1
      rw [fat_next_cluster_fst, fat_next_cluster_fst]
      rw [fat_set_cluster_frame fmp d b1 c v (entryAddr fmp (c - 1))
        (by rw [hA, hA]; omega) (by rw [hA, hA]; omega)]
      rw [fat_set_cluster_frame fmp d b1 c v (entryAddr fmp (c - 1) + 1)
        (by rw [hA, hA]; omega) (by rw [hA, hA]; omega)]

/-- A concrete FAT12 mount used by witnesses: mask 0xfff, end-of-chain
threshold 0xff8. -/
def fmpW12 : Fatfsmount := ⟨false, 1, 4095, 4088, 3000, 512, 1, 19, 33⟩

/-- A concrete byte disk used by witnesses. -/
def dW : Disk := fun a => a % 251

/-- A concrete scratch buffer used by witnesses. -/
def bW : Buf := fun _ => 7

/-- Witness for C1 at the FAT12 configuration, on cluster 341, whose FAT12
entry straddles the sector border (byte offset 511). -/
theorem C1_set_cluster_next_cluster_roundtrip_witness :
    (fat_next_cluster fmpW12 (fat_set_cluster fmpW12 dW bW 341 2000).1 bW 341).1 =
      2000 &&& fmpW12.fat_mask :=
  C1_set_cluster_next_cluster_roundtrip fmpW12 dW bW bW 341 2000 (Or.inr ⟨rfl, rfl⟩)

/-- Witness for C4 at the cluster pair 340/341/342 whose packed bytes
(byte offsets 510..513) straddle the boundary between the first two FAT
sectors. -/
theorem C4_fat12_neighbor_isolation_witness :
    (fat_next_cluster fmpW12 (fat_set_cluster fmpW12 dW bW 341 2000).1 bW (341 + 1)).1 =
        (fat_next_cluster fmpW12 dW bW (341 + 1)).1 ∧
      (1 ≤ 341 →
        (fat_next_cluster fmpW12 (fat_set_cluster fmpW12 dW bW 341 2000).1 bW (341 - 1)).1 =
          (fat_next_cluster fmpW12 dW bW (341 - 1)).1) :=
  C4_fat12_neighbor_isolation fmpW12 dW bW bW bW 341 2000 rfl rfl

/-!
Entry-level model of the chain operations of src/fatfs_fat.c. The FAT is
viewed as a map from entry index to stored value; fat_next_cluster and
fat_set_cluster become the entry read and the masked entry write, which is
exactly what the byte-level theorems above establish for the codec
(C1 roundtrip, C4 neighbour isolation, fat_set_cluster_frame). Sector I/O
faults are modelled per FAT entry index.
-/

/-- EINVAL from errno.h. -/
def EINVAL : Nat := 22

/-- EIO from errno.h. -/
def EIO : Nat := 5

/-- ENOSPC from errno.h. -/
def ENOSPC : Nat := 28

/-- ENOENT from errno.h. -/
def ENOENT : Nat := 2

/-- EAGAIN from errno.h. -/
def EAGAIN : Nat := 11

/-- Outcome of an embedded operation: a normal return value, an errno-style
failure, or out of fuel (the corresponding C loop would still be running). -/
inductive Res (α : Type) where
  | ok : α → Res α
  | fail : Nat → Res α
  | out : Res α

/-- Error propagation of the sources: every callee error is returned to the
caller unchanged (the if (error) return error idiom); fuel exhaustion also
propagates. -/
def Res.bind {α β : Type} : Res α → (α → Res β) → Res β
  | .ok a, f => f a
  | .fail e, _ => .fail e
  | .out, _ => .out

/-- Per-entry I/O fault model for the FAT entry codec: readErr c (writeErr c)
is the errno produced by the underlying sector transfer when reading
(writing) cluster c's FAT entry, none when the transfer succeeds. -/
structure IOEnv where
  readErr : Nat → Option Nat
  writeErr : Nat → Option Nat

/-- The environment in which every sector transfer succeeds. -/
def envOK : IOEnv := ⟨fun _ => none, fun _ => none⟩

/-- The mutable per-mount state threaded through the chain operations: the
FAT (entry index to stored value) and the free_scan cursor of struct
fatfsmount. -/
structure St where
  fat : Nat → Nat
  free_scan : Nat

/-- Entry-level fat_next_cluster (src/fatfs_fat.c:121-152): the read of
cluster cl's FAT entry either fails with the fault's errno or returns the
stored value. Entry abstraction of the byte-level fat_next_cluster
(fat_next_cluster_fst, C1). -/
def fat_next_cluster_e (env : IOEnv) (st : St) (cl : Nat) : Res Nat :=
  match env.readErr cl with
  | some e => .fail e
  | none => .ok (st.fat cl)

/-- Entry-level fat_set_cluster (src/fatfs_fat.c:160-196): the entry is read
first (so a read fault fails first, line 169), then the value masked with
fat_mask is stored and written back; a write fault fails without changing
the FAT. Entry abstraction of the byte-level fat_set_cluster (C1 roundtrip,
C4 neighbour isolation, fat_set_cluster_frame for all other entries). -/
def fat_set_cluster_e (env : IOEnv) (fmp : Fatfsmount) (st : St) (cl next : Nat) : Res St :=
  match env.readErr cl with
  | some e => .fail e
  | none =>
    match env.writeErr cl with
    | some e => .fail e
    | none => .ok ⟨fun x => if x = cl then next &&& fmp.fat_mask else st.fat x, st.free_scan⟩

/-- The scan loop of fat_alloc_cluster (src/fatfs_fat.c:216-228), with fuel:
cl is the cluster examined next; the loop fails with ENOSPC when cl comes
back to scan_start, returns the first cluster whose entry reads CL_FREE, and
wraps ++cl to CL_FIRST when it reaches last_cluster. The mount state is
returned unchanged, mirroring that the C function writes neither the FAT nor
free_scan. -/
def fat_alloc_cluster_loop (env : IOEnv) (fmp : Fatfsmount) (st : St) (scan_start : Nat) :
    Nat → Nat → Res (Nat × St)
  | 0, _ => .out
  | fuel + 1, cl =>
    if cl = scan_start then .fail ENOSPC
    else
      Res.bind (fat_next_cluster_e env st cl) fun next =>
        if next = CL_FREE then .ok (cl, st)
        else
          fat_alloc_cluster_loop env fmp st scan_start fuel
            (if fmp.last_cluster ≤ cl + 1 then CL_FIRST else cl + 1)

/-- fat_alloc_cluster (src/fatfs_fat.c:205-230): when scan_start is 0 the
persisted free_scan cursor is used instead; the scan starts at the cluster
after the effective origin. -/
def fat_alloc_cluster (env : IOEnv) (fmp : Fatfsmount) (st : St) (scan_start fuel : Nat) :
    Res (Nat × St) :=
  let s := if scan_start = 0 then st.free_scan else scan_start
  fat_alloc_cluster_loop env fmp st s fuel (s + 1)

/-- The walk of fat_free_clusters (src/fatfs_fat.c:247-260), with fuel: while
cl does not test as end-of-chain, read its successor, free cl and advance;
when cl tests as end-of-chain the trailing fat_set_cluster(cl, CL_FREE)
marked "Clear eof" in the source runs on that value of cl. -/
def fat_free_clusters_loop (env : IOEnv) (fmp : Fatfsmount) :
    Nat → St → Nat → Res St
  | 0, _, _ => .out
  | fuel + 1, st, cl =>
    if IS_EOFCL fmp cl then
      fat_set_cluster_e env fmp st cl CL_FREE
    else
      Res.bind (fat_next_cluster_e env st cl) fun next =>
        Res.bind (fat_set_cluster_e env fmp st cl CL_FREE) fun st2 =>
          fat_free_clusters_loop env fmp fuel st2 next

/-- fat_free_clusters (src/fatfs_fat.c:237-261): EINVAL for a start cluster
below CL_FIRST, otherwise the walk-and-free loop. -/
def fat_free_clusters (env : IOEnv) (fmp : Fatfsmount) (st : St) (start fuel : Nat) : Res St :=
  if start < CL_FIRST then .fail EINVAL
  else fat_free_clusters_loop env fmp fuel st start

/-- The tail-finding walk of fat_expand_dir (src/fatfs_fat.c:358-363), with
fuel: advances cl to its stored successor until cl itself tests as
end-of-chain, and returns that final value of cl. -/
def fat_expand_dir_walk (env : IOEnv) (fmp : Fatfsmount) (st : St) :
    Nat → Nat → Res Nat
  | 0, _ => .out
  | fuel + 1, cl =>
    if IS_EOFCL fmp cl then .ok cl
    else
      Res.bind (fat_next_cluster_e env st cl) fun next =>
        fat_expand_dir_walk env fmp st fuel next

/-- fat_expand_dir (src/fatfs_fat.c:351-379): walk until cl tests as
end-of-chain, allocate a cluster scanning from the value where the walk
stopped, write that cluster into the entry indexed by the stopping value,
mark the new cluster end-of-chain and return it. -/
def fat_expand_dir (env : IOEnv) (fmp : Fatfsmount) (st : St) (cl walkFuel allocFuel : Nat) :
    Res (St × Nat) :=
  Res.bind (fat_expand_dir_walk env fmp st walkFuel cl) fun cl2 =>
    Res.bind (fat_alloc_cluster env fmp st cl2 allocFuel) fun p =>
      Res.bind (fat_set_cluster_e env fmp p.2 cl2 p.1) fun st2 =>
        Res.bind (fat_set_cluster_e env fmp st2 p.1 fmp.fat_eof) fun st3 =>
          .ok (st3, p.1)

/-- The growth loop of fat_expand_file (src/fatfs_fat.c:319-335), with the
remaining iteration count as first recursion argument: each step reads the
next pointer of current; when growth has already started or that pointer is
at or above fat_eof, a fresh cluster is allocated scanning from current and
linked as current's successor; then current advances. -/
def fat_expand_file_loop (env : IOEnv) (fmp : Fatfsmount) (allocFuel : Nat) :
    Nat → St → Nat → Bool → Res (St × Nat × Bool)
  | 0, st, current, alloc => .ok (st, current, alloc)
  | k + 1, st, current, alloc =>
    Res.bind (fat_next_cluster_e env st current) fun next =>
      if alloc || decide (fmp.fat_eof ≤ next) then
        Res.bind (fat_alloc_cluster env fmp st current allocFuel) fun p =>
          Res.bind (fat_set_cluster_e env fmp p.2 current p.1) fun st2 =>
            fat_expand_file_loop env fmp allocFuel k st2 p.1 true
      else fat_expand_file_loop env fmp allocFuel k st next alloc

/-- The end-of-chain write of fat_expand_file (src/fatfs_fat.c:337): the C
code does not check the return value of this fat_set_cluster call, so on
failure the state is simply the unwritten one and no error is reported. -/
def eofWriteDiscard (env : IOEnv) (fmp : Fatfsmount) (st : St) (cur : Nat) : St :=
  match fat_set_cluster_e env fmp st cur fmp.fat_eof with
  | .ok st2 => st2
  | .fail _ => st
  | .out => st

/-- The part of fat_expand_file after the possible first-cluster allocation:
the growth loop followed, when growth happened, by the end-of-chain write on
the last cluster touched — whose error the C code drops: the return value of
that fat_set_cluster call is not checked and the function returns 0
(src/fatfs_fat.c:336-339). -/
def fat_expand_file_tail (env : IOEnv) (fmp : Fatfsmount) (allocFuel cl_len : Nat)
    (st : St) (c0 : Nat) (alloc0 : Bool) : Res (St × Nat) :=
  Res.bind (fat_expand_file_loop env fmp allocFuel (cl_len - 1) st c0 alloc0) fun q =>
    if q.2.2 then .ok (eofWriteDiscard env fmp q.1 q.2.1, c0)
    else .ok (q.1, c0)

/-- fat_expand_file (src/fatfs_fat.c:300-340): cl_len clusters are needed for
size bytes; when the file was empty (cl = CL_FREE) the first cluster is
allocated with scan_start 0; then the growth loop runs cl_len - 1 times and
the end-of-chain mark is written as described in fat_expand_file_tail.
Returns the possibly updated first cluster (the in-out *cl). -/
def fat_expand_file (env : IOEnv) (fmp : Fatfsmount) (st : St) (cl size allocFuel : Nat) :
    Res (St × Nat) :=
  let cl_len := (size + fmp.cluster_size - 1) / fmp.cluster_size
  if cl = CL_FREE then
    Res.bind (fat_alloc_cluster env fmp st 0 allocFuel) fun p =>
      fat_expand_file_tail env fmp allocFuel cl_len p.2 p.1 true
  else fat_expand_file_tail env fmp allocFuel cl_len st cl false

lemma Res.bind_ok {α β : Type} (a : α) (f : α → Res β) : Res.bind (.ok a) f = f a := rfl

lemma Res.bind_fail {α β : Type} (e : Nat) (f : α → Res β) :
    Res.bind (.fail e) f = (.fail e : Res β) := rfl

lemma Res.bind_out {α β : Type} (f : α → Res β) : Res.bind .out f = (.out : Res β) := rfl

lemma Res.bind_eq_ok {α β : Type} {r : Res α} {f : α → Res β} {b : β}
    (h : Res.bind r f = .ok b) : ∃ a, r = .ok a ∧ f a = .ok b := by
  cases r with
  | ok a => exact ⟨a, rfl, h⟩
  | fail e => exact absurd h (by simp [Res.bind])
  | out => exact absurd h (by simp [Res.bind])

lemma fat_next_cluster_e_some (env : IOEnv) (st : St) (cl e : Nat)
    (h : env.readErr cl = some e) : fat_next_cluster_e env st cl = .fail e := by
  unfold fat_next_cluster_e
  rw [h]

lemma fat_next_cluster_e_none (env : IOEnv) (st : St) (cl : Nat)
    (h : env.readErr cl = none) : fat_next_cluster_e env st cl = .ok (st.fat cl) := by
  unfold fat_next_cluster_e
  rw [h]

lemma fat_set_cluster_e_none (env : IOEnv) (fmp : Fatfsmount) (st : St) (cl v : Nat)
    (hr : env.readErr cl = none) (hw : env.writeErr cl = none) :
    fat_set_cluster_e env fmp st cl v =
      .ok ⟨fun x => if x = cl then v &&& fmp.fat_mask else st.fat x, st.free_scan⟩ := by
  unfold fat_set_cluster_e
  rw [hr, hw]

lemma fat_next_cluster_e_envOK (st : St) (cl : Nat) :
    fat_next_cluster_e envOK st cl = .ok (st.fat cl) := rfl

lemma fat_set_cluster_e_envOK (fmp : Fatfsmount) (st : St) (cl v : Nat) :
    fat_set_cluster_e envOK fmp st cl v =
      .ok ⟨fun x => if x = cl then v &&& fmp.fat_mask else st.fat x, st.free_scan⟩ := rfl

/-- What a successful allocation scan guarantees: the state is untouched, the
returned cluster's entry read as CL_FREE with no read fault, and the scan
never examines its own origin, so the result differs from scan_start. -/
lemma fat_alloc_cluster_loop_spec (env : IOEnv) (fmp : Fatfsmount) (st : St) (s : Nat) :
    ∀ fuel cl c st2, fat_alloc_cluster_loop env fmp st s fuel cl = .ok (c, st2) →
      st2 = st ∧ st.fat c = CL_FREE ∧ c ≠ s ∧ env.readErr c = none := by
  intro fuel
  induction fuel with
  | zero =>
    intro cl c st2 h
    exact absurd h (by unfold fat_alloc_cluster_loop; simp)
  | succ n ih =>
    intro cl c st2 h
    unfold fat_alloc_cluster_loop at h
    by_cases hcl : cl = s
    · rw [if_pos hcl] at h
      exact absurd h (by simp)
    · rw [if_neg hcl] at h
      cases hre : env.readErr cl with
      | some e =>
        rw [fat_next_cluster_e_some env st cl e hre, Res.bind_fail] at h
        exact absurd h (by simp)
      | none =>
        rw [fat_next_cluster_e_none env st cl hre, Res.bind_ok] at h
        by_cases hfree : st.fat cl = CL_FREE
        · rw [if_pos hfree] at h
          have h2 : cl = c ∧ st = st2 := by
            injection h with h3
            injection h3 with h4 h5
            exact ⟨h4, h5⟩
          obtain ⟨h4, h5⟩ := h2
          subst h4
          subst h5
          exact ⟨rfl, hfree, hcl, hre⟩
        · rw [if_neg hfree] at h
          exact ih _ _ _ h

/-- The same guarantees for fat_alloc_cluster itself, phrased against the
effective scan origin (free_scan when scan_start is 0). -/
lemma fat_alloc_cluster_spec (env : IOEnv) (fmp : Fatfsmount) (st : St)
    (scan_start fuel c : Nat) (st2 : St)
    (h : fat_alloc_cluster env fmp st scan_start fuel = .ok (c, st2)) :
    st2 = st ∧ st.fat c = CL_FREE ∧
      c ≠ (if scan_start = 0 then st.free_scan else scan_start) ∧ env.readErr c = none := by
  unfold fat_alloc_cluster at h
  exact fat_alloc_cluster_loop_spec env fmp st _ fuel _ c st2 h

/-- A concrete FAT16-geometry mount for the chain-level runs: mask 0xffff,
end-of-chain threshold 0xfff8, valid data clusters 2..9. -/
def fmpE : Fatfsmount := ⟨true, 1, 65535, 65528, 10, 512, 1, 19, 33⟩

/-- FAT holding the one-cluster directory chain 5 -> 0xffff, with cluster 6
free and every other entry (including those beyond last_cluster) non-free. -/
def stC2 : St := ⟨fun c => if c = 5 then 65535 else if c = 6 then 0 else 1, 2⟩

/-- C2: evaluation of fat_expand_dir on the one-cluster directory chain
5 -> 0xffff with cluster 6 free. The call succeeds with new_cl = 6 and marks
6 end-of-chain, but the chain's last real cluster 5 still stores 0xffff: the
fresh cluster was never linked behind it. The link went instead to the FAT
entry at index 0xffff — the end-of-chain value where the tail-finding walk
stopped, far beyond last_cluster — contradicting the function's own comment
"Find last cluster number of FAT chain". -/
theorem C2_expand_dir_not_linked :
    ∃ st2, fat_expand_dir envOK fmpE stC2 5 3 20 = .ok (st2, 6) ∧
      st2.fat 5 = 65535 ∧ st2.fat 65535 = 6 ∧ st2.fat 6 = 65528 := by
  refine ⟨_, rfl, ?_, ?_, ?_⟩ <;> decide

/-- FAT holding the chain 5 -> 6 -> 7 -> 0xffff; the entry at index 0xffff
initially stores 2748. -/
def stC3 : St := ⟨fun c => if c = 5 then 6 else if c = 6 then 7 else if c = 7 then 65535
  else if c = 65535 then 2748 else 1, 2⟩

/-- C3: evaluation of fat_free_clusters on the chain 5 -> 6 -> 7 -> 0xffff.
The three chain clusters are freed, but the loop leaves cl equal to the
end-of-chain value 0xffff and the trailing "Clear eof" write then reads and
clears the FAT entry at index 0xffff — an entry past the end-of-chain marker
and beyond last_cluster (its value changes from 2748 to 0), contradicting
the claim that exactly start, a, b are written. -/
theorem C3_free_clusters_extra_write :
    ∃ st2, fat_free_clusters envOK fmpE stC3 5 10 = .ok st2 ∧
      st2.fat 5 = 0 ∧ st2.fat 6 = 0 ∧ st2.fat 7 = 0 ∧
      st2.fat 65535 = 0 ∧ stC3.fat 65535 = 2748 := by
  refine ⟨_, rfl, ?_, ?_, ?_, ?_, ?_⟩ <;> decide

/-- An entirely free FAT. -/
def stC5 : St := ⟨fun _ => 0, 2⟩

/-- C5 counterexample: with scan_start = last_cluster (10), the first
examined cluster is 11; its entry reads free and fat_alloc_cluster returns
it, although 11 lies outside [CL_FIRST, last_cluster). The range guarantee
fails for this scan_start because the first probe is not wrapped. -/
theorem C5_alloc_out_of_range_counterexample :
    ∃ st2, fat_alloc_cluster envOK fmpE stC5 10 5 = .ok (11, st2) ∧
      ¬(CL_FIRST ≤ 11 ∧ 11 < fmpE.last_cluster) := by
  refine ⟨_, rfl, ?_⟩
  decide

/-- C5 amended: on a well-formed volume — every FAT entry that reads free
lies in the valid data range [CL_FIRST, last_cluster) — every successful
fat_alloc_cluster call, with any scan_start, returns a cluster in
[CL_FIRST, last_cluster) whose entry read as free immediately before the
call returned it (the call never writes, so the pre-call FAT is the one
read). -/
theorem C5_alloc_in_range (env : IOEnv) (fmp : Fatfsmount) (st : St)
    (scan_start fuel c : Nat) (st2 : St)
    (hsane : ∀ x, st.fat x = CL_FREE → CL_FIRST ≤ x ∧ x < fmp.last_cluster)
    (h : fat_alloc_cluster env fmp st scan_start fuel = .ok (c, st2)) :
    (CL_FIRST ≤ c ∧ c < fmp.last_cluster) ∧ st.fat c = CL_FREE := by
  obtain ⟨-, hfree, -, -⟩ := fat_alloc_cluster_spec env fmp st scan_start fuel c st2 h
  exact ⟨hsane c hfree, hfree⟩

/-- FAT with a single free cluster 5; free_scan is 2. -/
def stC9 : St := ⟨fun c => if c = 5 then 0 else 1, 2⟩

/-- Witness for the amended C5 on a concrete run: scanning from the stored
cursor finds cluster 5. -/
theorem C5_alloc_in_range_witness :
    (CL_FIRST ≤ 5 ∧ 5 < fmpE.last_cluster) ∧ stC9.fat 5 = CL_FREE := by
  have hsane : ∀ x, stC9.fat x = CL_FREE → CL_FIRST ≤ x ∧ x < fmpE.last_cluster := by
    intro x hx
    by_cases h5 : x = 5
    · subst h5; decide
    · exact absurd hx (by simp [stC9, CL_FREE, h5])
  exact C5_alloc_in_range envOK fmpE stC9 0 10 5 stC9 hsane rfl

/-- C9 counterexample: a concrete successful allocation (scan_start = 0,
cursor 2) examines clusters 3, 4, 5 and returns 5, the last cluster it
examined — yet free_scan still holds 2 afterwards: the cursor was not
advanced. -/
theorem C9_free_scan_not_advanced_counterexample :
    ∃ st2, fat_alloc_cluster envOK fmpE stC9 0 10 = .ok (5, st2) ∧
      st2.free_scan = 2 ∧ (5 : Nat) ≠ 2 := by
  refine ⟨_, rfl, ?_, ?_⟩ <;> decide

/-- C9 amended: fat_alloc_cluster reads free_scan as the default scan origin
but never writes it (nor any other mount state): after every successful
call the returned state is the input state unchanged, so a later call with
scan_start = 0 starts from the same cursor as this one. -/
theorem C9_alloc_leaves_free_scan (env : IOEnv) (fmp : Fatfsmount) (st : St)
    (scan_start fuel c : Nat) (st2 : St)
    (h : fat_alloc_cluster env fmp st scan_start fuel = .ok (c, st2)) :
    st2.free_scan = st.free_scan ∧ st2.fat = st.fat := by
  obtain ⟨h1, -, -, -⟩ := fat_alloc_cluster_spec env fmp st scan_start fuel c st2 h
  subst h1
  exact ⟨rfl, rfl⟩

/-- Witness for the amended C9 on the concrete run that allocates cluster 5. -/
theorem C9_alloc_leaves_free_scan_witness :
    stC9.free_scan = stC9.free_scan ∧ stC9.fat = stC9.fat := by
  have h : fat_alloc_cluster envOK fmpE stC9 0 10 = .ok (5, stC9) := rfl
  exact C9_alloc_leaves_free_scan envOK fmpE stC9 0 10 5 stC9 h

/-- I/O environment where the write of cluster 3's FAT entry fails with EIO
and every other transfer succeeds. -/
def envC8 : IOEnv := ⟨fun _ => none, fun c => if c = 3 then some EIO else none⟩

/-- FAT where clusters up to 2 are non-free and everything from 3 on is
free; free_scan is 2. -/
def stC8 : St := ⟨fun c => if c ≤ 2 then 1 else 0, 2⟩

/-- C8: fat_expand_file on an empty file of one cluster allocates cluster 3,
then the final end-of-chain write on cluster 3 fails with EIO — yet the
function returns success, with cluster 3's entry still free on disk: the
error of the last fat_set_cluster (src/fatfs_fat.c:337) is discarded, so
the first-error propagation policy is violated. -/
theorem C8_expand_file_drops_final_write_error :
    ∃ st2, fat_expand_file envC8 fmpE stC8 0 1 10 = .ok (st2, 3) ∧
      st2.fat 3 = 0 ∧ envC8.writeErr 3 = some EIO := by
  refine ⟨_, rfl, ?_, ?_⟩ <;> decide

/-- The last element of a nonempty list given as head plus tail. -/
def listLast (a : Nat) : List Nat → Nat
  | [] => a
  | b :: t => listLast b t

lemma listLast_eq_get (a : Nat) (l : List Nat) :
    listLast a l = (a :: l).get ⟨l.length, by simp⟩ := by
  induction l generalizing a with
  | nil => rfl
  | cons b t ih =>
    show listLast b t = (a :: b :: t).get ⟨t.length + 1, by simp⟩
    rw [List.get_cons_succ]
    exact ih b

lemma listLast_mem (a : Nat) (l : List Nat) : listLast a l ∈ a :: l := by
  induction l generalizing a with
  | nil => simp [listLast]
  | cons b t ih =>
    show listLast b t ∈ a :: b :: t
    have := ih b
    simp at this ⊢
    tauto

/-- Geometry sanity for the entry-level chain proofs: fat_mask is a
power-of-two mask wide enough for every cluster number and for the
end-of-chain threshold, and every valid cluster number stays below the
threshold (0xfff/0xff8 for FAT12, 0xffff/0xfff8 for FAT16 satisfy this). -/
def MaskOK (fmp : Fatfsmount) : Prop :=
  ∃ w, fmp.fat_mask = 2 ^ w - 1 ∧ fmp.last_cluster ≤ 2 ^ w ∧ fmp.fat_eof < 2 ^ w ∧
    fmp.last_cluster ≤ fmp.fat_eof

lemma MaskOK.and_id {fmp : Fatfsmount} (h : MaskOK fmp) {x : Nat}
    (hx : x < fmp.last_cluster) : x &&& fmp.fat_mask = x := by
  obtain ⟨w, hm, hl, -, -⟩ := h
  rw [hm]
  exact Nat.and_pow_two_sub_one_of_lt_two_pow (by omega)

lemma MaskOK.and_eof {fmp : Fatfsmount} (h : MaskOK fmp) :
    fmp.fat_eof &&& fmp.fat_mask = fmp.fat_eof := by
  obtain ⟨w, hm, -, he, -⟩ := h
  rw [hm]
  exact Nat.and_pow_two_sub_one_of_lt_two_pow he

lemma MaskOK.last_le_eof {fmp : Fatfsmount} (h : MaskOK fmp) :
    fmp.last_cluster ≤ fmp.fat_eof := by
  obtain ⟨w, -, -, -, hle⟩ := h
  exact hle

/-- The chain from c0 consists of exactly n clusters followed by an
end-of-chain value: the n iterated successors are below the end-of-chain
threshold and pairwise distinct, and the link stored in the last one is at
or above the threshold. -/
def ChainN (fmp : Fatfsmount) (fat : Nat → Nat) (c0 n : Nat) : Prop :=
  (∀ i, i < n → ¬(fmp.fat_eof ≤ fat^[i] c0)) ∧
    (∀ i q, i < n → q < n → fat^[i] c0 = fat^[q] c0 → i = q) ∧
    fmp.fat_eof ≤ fat^[n] c0

lemma iterate_eq_get (fat : Nat → Nat) (c0 : Nat) (rest : List Nat)
    (hlinks : ∀ i (h2 : i + 1 < (c0 :: rest).length),
      fat ((c0 :: rest).get ⟨i, by omega⟩) = (c0 :: rest).get ⟨i + 1, h2⟩) :
    ∀ i (hi : i < (c0 :: rest).length), fat^[i] c0 = (c0 :: rest).get ⟨i, hi⟩ := by
  intro i
  induction i with
  | zero => intro hi; simp
  | succ m ihm =>
    intro hi
    rw [Function.iterate_succ_apply' fat m c0, ihm (by omega)]
    exact hlinks m hi

/-- After writing the end-of-chain value into the entry of the chain's last
element, a Nodup linked list becomes a terminated chain: the iterates follow
the list and the final link reads at or above the threshold. -/
lemma chain_after_eof_write (fmp : Fatfsmount) (fat0 : Nat → Nat) (c0 : Nat) (ns : List Nat)
    (hnd : (c0 :: ns).Nodup)
    (hlinks : ∀ i (h2 : i + 1 < (c0 :: ns).length),
      fat0 ((c0 :: ns).get ⟨i, by omega⟩) = (c0 :: ns).get ⟨i + 1, h2⟩)
    (fat1 : Nat → Nat)
    (hfat1 : ∀ x, fat1 x = if x = listLast c0 ns then fmp.fat_eof else fat0 x) :
    (∀ i (hi : i < (c0 :: ns).length), fat1^[i] c0 = (c0 :: ns).get ⟨i, hi⟩) ∧
      fmp.fat_eof ≤ fat1^[(c0 :: ns).length] c0 := by
  have hlen : (c0 :: ns).length = ns.length + 1 := by simp
  have hlinks1 : ∀ i (h2 : i + 1 < (c0 :: ns).length),
      fat1 ((c0 :: ns).get ⟨i, by omega⟩) = (c0 :: ns).get ⟨i + 1, h2⟩ := by
    intro i h2
    rw [hfat1]
    rw [if_neg]
    · exact hlinks i h2
    · rw [listLast_eq_get]
      intro hcontra
      have hfin := (List.Nodup.get_inj_iff hnd).mp hcontra
      have h3 : i = ns.length := congrArg Fin.val hfin
      omega
  have hget := iterate_eq_get fat1 c0 ns hlinks1
  refine ⟨hget, ?_⟩
  rw [hlen, Function.iterate_succ_apply' fat1 ns.length c0, hget ns.length (by simp)]
  rw [← listLast_eq_get, hfat1, if_pos rfl]

/-- What the growth phase of fat_expand_file builds (all transfers
succeeding): starting from a free cluster cur in the valid range, k
iterations with the alloc flag set extend cur by k freshly allocated,
pairwise distinct clusters that were free and in range beforehand; exactly
the entries of cur and of those clusters (except the last) are written, each
linking to the next; the final current is the last of them, its entry still
free, and free_scan is untouched. -/
lemma fat_expand_file_loop_grow (fmp : Fatfsmount) (af : Nat) (hmask : MaskOK fmp) :
    ∀ (k : Nat) (st : St) (cur : Nat) (res : St × Nat × Bool),
      (∀ x, st.fat x = CL_FREE → CL_FIRST ≤ x ∧ x < fmp.last_cluster) →
      CL_FIRST ≤ cur → cur < fmp.last_cluster → st.fat cur = CL_FREE →
      fat_expand_file_loop envOK fmp af k st cur true = .ok res →
      ∃ ns : List Nat, ns.length = k ∧
        res.2.2 = true ∧
        res.2.1 = listLast cur ns ∧
        (cur :: ns).Nodup ∧
        (∀ m ∈ ns, CL_FIRST ≤ m ∧ m < fmp.last_cluster ∧ st.fat m = CL_FREE) ∧
        (∀ i (h2 : i + 1 < (cur :: ns).length),
          res.1.fat ((cur :: ns).get ⟨i, by omega⟩) = (cur :: ns).get ⟨i + 1, h2⟩) ∧
        (∀ x, x ∉ cur :: ns → res.1.fat x = st.fat x) ∧
        res.1.fat (listLast cur ns) = CL_FREE ∧
        res.1.free_scan = st.free_scan := by
  intro k
  induction k with
  | zero =>
    intro st cur res hsane hcur1 hcur2 hfree h
    unfold fat_expand_file_loop at h
    have hres : res = (st, cur, true) := by
      injection h with h2
      exact h2.symm
    subst hres
    refine ⟨[], rfl, rfl, rfl, by simp, by simp, ?_, ?_, hfree, rfl⟩
    · intro i h2
      simp at h2
    · intro x hx
      rfl
  | succ n ih =>
    intro st cur res hsane hcur1 hcur2 hfree h
    unfold fat_expand_file_loop at h
    rw [fat_next_cluster_e_envOK, Res.bind_ok, Bool.true_or,
      if_pos (show (true = true) from rfl)] at h
    obtain ⟨p, halloc, h⟩ := Res.bind_eq_ok h
    obtain ⟨hst0, hcfree, hcs, -⟩ := fat_alloc_cluster_spec envOK fmp st cur af p.1 p.2 halloc
    rw [if_neg (show ¬(cur = 0) by
      rw [show CL_FIRST = 2 from rfl] at hcur1; omega)] at hcs
    obtain ⟨hc1, hc2⟩ := hsane p.1 hcfree
    rw [hst0, fat_set_cluster_e_envOK, Res.bind_ok] at h
    set st1 : St := ⟨fun x => if x = cur then p.1 &&& fmp.fat_mask else st.fat x, st.free_scan⟩
      with hst1
    have hst1fat : ∀ x, st1.fat x = if x = cur then p.1 else st.fat x := by
      intro x
      rw [hst1]
      show (if x = cur then p.1 &&& fmp.fat_mask else st.fat x) = _
      rw [hmask.and_id hc2]
    have hp1pos : ¬(p.1 = CL_FREE) := by
      rw [show CL_FIRST = 2 from rfl] at hc1
      rw [show CL_FREE = 0 from rfl]
      omega
    have hsane1 : ∀ x, st1.fat x = CL_FREE → CL_FIRST ≤ x ∧ x < fmp.last_cluster := by
      intro x hx
      rw [hst1fat] at hx
      by_cases hxc : x = cur
      · rw [if_pos hxc] at hx
        exact absurd hx hp1pos
      · rw [if_neg hxc] at hx
        exact hsane x hx
    have hfree1 : st1.fat p.1 = CL_FREE := by
      rw [hst1fat, if_neg hcs]
      exact hcfree
    obtain ⟨ns1, hlen1, hflag1, hlast1, hnd1, hmem1, hlinks1, hframe1, hlastfree1, hfs1⟩ :=
      ih st1 p.1 res hsane1 hc1 hc2 hfree1 h
    have hst1cur : st1.fat cur = p.1 := by
      rw [hst1fat, if_pos rfl]
    have hcurnotin : cur ∉ p.1 :: ns1 := by
      intro hmem
      rcases List.mem_cons.mp hmem with hh | hh
      · exact hcs hh.symm
      · obtain ⟨-, -, hfree0⟩ := hmem1 cur hh
        rw [hst1cur] at hfree0
        exact hp1pos hfree0
    refine ⟨p.1 :: ns1, by simp [hlen1], hflag1, hlast1,
      List.nodup_cons.mpr ⟨hcurnotin, hnd1⟩, ?_, ?_, ?_, hlastfree1, ?_⟩
    · intro m hm
      rcases List.mem_cons.mp hm with hh | hh
      · subst hh
        exact ⟨hc1, hc2, hcfree⟩
      · obtain ⟨b1, b2, hfm⟩ := hmem1 m hh
        rw [hst1fat] at hfm
        by_cases hmc : m = cur
        · rw [if_pos hmc] at hfm
          exact absurd hfm hp1pos
        · rw [if_neg hmc] at hfm
          exact ⟨b1, b2, hfm⟩
    · intro i h2
      cases i with
      | zero =>
        show res.1.fat cur = p.1
        rw [hframe1 cur hcurnotin, hst1cur]
      | succ j =>
        rw [List.get_cons_succ, List.get_cons_succ]
        exact hlinks1 j (by simp at h2 ⊢; omega)
    · intro x hx
      have hx1 : x ∉ p.1 :: ns1 := by
        intro hmem
        exact hx (List.mem_cons_of_mem cur hmem)
      have hxcur : ¬(x = cur) := by
        intro hh
        exact hx (by rw [hh]; exact List.mem_cons_self cur (p.1 :: ns1))
      rw [hframe1 x hx1, hst1fat, if_neg hxcur]
    · rw [hfs1, hst1]

lemma eofWriteDiscard_envOK (fmp : Fatfsmount) (st : St) (cur : Nat) :
    eofWriteDiscard envOK fmp st cur =
      ⟨fun x => if x = cur then fmp.fat_eof &&& fmp.fat_mask else st.fat x, st.free_scan⟩ := rfl

lemma fat_expand_file_loop_succ (env : IOEnv) (fmp : Fatfsmount) (af k : Nat) (st : St)
    (cur : Nat) (alloc : Bool) :
    fat_expand_file_loop env fmp af (k + 1) st cur alloc =
      Res.bind (fat_next_cluster_e env st cur) fun next =>
        if alloc || decide (fmp.fat_eof ≤ next) then
          Res.bind (fat_alloc_cluster env fmp st cur af) fun p =>
            Res.bind (fat_set_cluster_e env fmp p.2 cur p.1) fun st2 =>
              fat_expand_file_loop env fmp af k st2 p.1 true
        else fat_expand_file_loop env fmp af k st next alloc := rfl

/-- The traversal phase of fat_expand_file (all transfers succeeding): as
long as the next pointers read stay below the end-of-chain threshold and
the alloc flag is clear, the loop only advances current along the existing
chain, writing nothing. -/
lemma fat_expand_file_loop_walk (fmp : Fatfsmount) (af : Nat) (st : St) :
    ∀ (j k cur : Nat),
      (∀ i, i < j → ¬(fmp.fat_eof ≤ st.fat (st.fat^[i] cur))) →
      fat_expand_file_loop envOK fmp af (j + k) st cur false =
        fat_expand_file_loop envOK fmp af k st (st.fat^[j] cur) false := by
  intro j
  induction j with
  | zero =>
    intro k cur hpre
    simp
  | succ j ihj =>
    intro k cur hpre
    have h0 : ¬(fmp.fat_eof ≤ st.fat cur) := by
      have := hpre 0 (by omega)
      simpa using this
    rw [show j + 1 + k = (j + k) + 1 by omega, fat_expand_file_loop_succ]
    rw [fat_next_cluster_e_envOK, Res.bind_ok, Bool.false_or]
    rw [if_neg (by simpa using h0)]
    have hrec := ihj k (st.fat cur) (fun i hi => by
      have h2 := hpre (i + 1) (by omega)
      rwa [Function.iterate_succ_apply] at h2)
    rw [hrec, ← Function.iterate_succ_apply]

/-- fat_expand_file on an empty file (cluster argument CL_FREE), all
transfers succeeding: a successful run with size needing n clusters builds a
chain of exactly n pairwise distinct clusters terminated by an end-of-chain
value, all of them free beforehand (freshly allocated). -/
lemma expand_file_empty_spec (fmp : Fatfsmount) (st : St) (size n af : Nat) (st2 : St)
    (c0 : Nat) (hmask : MaskOK fmp)
    (hsane : ∀ x, st.fat x = CL_FREE → CL_FIRST ≤ x ∧ x < fmp.last_cluster)
    (hsize : (size + fmp.cluster_size - 1) / fmp.cluster_size = n) (hn : 1 ≤ n)
    (h : fat_expand_file envOK fmp st CL_FREE size af = .ok (st2, c0)) :
    ChainN fmp st2.fat c0 n ∧ (∀ i, i < n → st.fat (st2.fat^[i] c0) = CL_FREE) := by
  unfold fat_expand_file at h
  rw [if_pos rfl, hsize] at h
  obtain ⟨p, halloc, htail⟩ := Res.bind_eq_ok h
  obtain ⟨hst0, hcfree, -, -⟩ := fat_alloc_cluster_spec envOK fmp st 0 af p.1 p.2 halloc
  obtain ⟨hc1, hc2⟩ := hsane p.1 hcfree
  rw [hst0] at htail
  unfold fat_expand_file_tail at htail
  obtain ⟨r, hloop, hfin⟩ := Res.bind_eq_ok htail
  obtain ⟨ns, hlen, hflag, hlast, hnd, hmem, hlinks, hframe, hlastfree, -⟩ :=
    fat_expand_file_loop_grow fmp af hmask (n - 1) st p.1 r hsane hc1 hc2 hcfree hloop
  rw [hflag, if_pos (show (true = true) from rfl), eofWriteDiscard_envOK] at hfin
  injection hfin with hpair
  injection hpair with hst2 hc0
  subst hc0
  have hfat1 : ∀ x, st2.fat x = if x = listLast p.1 ns then fmp.fat_eof else r.1.fat x := by
    intro x
    rw [← hst2, ← hlast]
    show (if x = r.2.1 then fmp.fat_eof &&& fmp.fat_mask else r.1.fat x) = _
    rw [hmask.and_eof]
  obtain ⟨hget, heofend⟩ := chain_after_eof_write fmp r.1.fat p.1 ns hnd hlinks st2.fat hfat1
  have hlenL : (p.1 :: ns).length = n := by
    simp [hlen]
    omega
  have hmemlt : ∀ x ∈ p.1 :: ns, x < fmp.last_cluster ∧ st.fat x = CL_FREE := by
    intro x hx
    rcases List.mem_cons.mp hx with hh | hh
    · subst hh
      exact ⟨hc2, hcfree⟩
    · exact ⟨(hmem x hh).2.1, (hmem x hh).2.2⟩
  have hle := hmask.last_le_eof
  refine ⟨⟨?_, ?_, ?_⟩, ?_⟩
  · intro i hi
    rw [hget i (by omega)]
    have := (hmemlt _ (List.get_mem (p.1 :: ns) i (by omega))).1
    omega
  · intro i iq hi hq heq
    rw [hget i (by omega), hget iq (by omega)] at heq
    exact congrArg Fin.val ((List.Nodup.get_inj_iff hnd).mp heq)
  · rw [show n = (p.1 :: ns).length from hlenL.symm]
    exact heofend
  · intro i hi
    rw [hget i (by omega)]
    exact (hmemlt _ (List.get_mem (p.1 :: ns) i (by omega))).2

/-- fat_expand_file on an existing well-formed m-cluster chain (m ≥ 1)
re-expanded to n > m clusters, all transfers succeeding: the returned first
cluster is the old one, the first m chain positions are unchanged, the
appended n - m clusters were all free beforehand, and the result is an
n-cluster chain terminated by an end-of-chain value. -/
lemma expand_file_grow_spec (fmp : Fatfsmount) (st : St) (cl size m n af : Nat) (st2 : St)
    (c0 : Nat) (hmask : MaskOK fmp)
    (hsane : ∀ x, st.fat x = CL_FREE → CL_FIRST ≤ x ∧ x < fmp.last_cluster)
    (hsize : (size + fmp.cluster_size - 1) / fmp.cluster_size = n)
    (hm : 1 ≤ m) (hmn : m < n)
    (hvalid : ∀ i, i < m → CL_FIRST ≤ st.fat^[i] cl ∧ st.fat^[i] cl < fmp.last_cluster)
    (hinj : ∀ i q, i < m → q < m → st.fat^[i] cl = st.fat^[q] cl → i = q)
    (heof : fmp.fat_eof ≤ st.fat^[m] cl)
    (h : fat_expand_file envOK fmp st cl size af = .ok (st2, c0)) :
    c0 = cl ∧ ChainN fmp st2.fat cl n ∧
      (∀ i, i < m → st2.fat^[i] cl = st.fat^[i] cl) ∧
      (∀ i, m ≤ i → i < n → st.fat (st2.fat^[i] cl) = CL_FREE) := by
  have hle := hmask.last_le_eof
  have hcl1 : CL_FIRST ≤ cl := by
    have := (hvalid 0 (by omega)).1
    simpa using this
  have hcl2 : cl < fmp.last_cluster := by
    have := (hvalid 0 (by omega)).2
    simpa using this
  have hC2 : CL_FIRST = 2 := rfl
  have hCF : CL_FREE = 0 := rfl
  unfold fat_expand_file at h
  rw [if_neg (show ¬(cl = CL_FREE) by omega), hsize] at h
  unfold fat_expand_file_tail at h
  obtain ⟨r, hloop, hfin⟩ := Res.bind_eq_ok h
  -- split the loop into the traversal of the existing chain and the growth
  rw [show n - 1 = (m - 1) + (n - m) by omega] at hloop
  rw [fat_expand_file_loop_walk fmp af st (m - 1) (n - m) cl (by
    intro i hi
    have h2 := (hvalid (i + 1) (by omega)).2
    rw [Function.iterate_succ_apply'] at h2
    omega)] at hloop
  rw [show n - m = (n - m - 1) + 1 by omega, fat_expand_file_loop_succ] at hloop
  rw [fat_next_cluster_e_envOK, Res.bind_ok, Bool.false_or] at hloop
  have heof2 : fmp.fat_eof ≤ st.fat (st.fat^[m - 1] cl) := by
    have h2 := heof
    rw [show m = m - 1 + 1 by omega, Function.iterate_succ_apply'] at h2
    exact h2
  rw [if_pos (by simpa using heof2)] at hloop
  obtain ⟨p, halloc, hloop2⟩ := Res.bind_eq_ok hloop
  obtain ⟨hst0, hcfree, hcs, -⟩ :=
    fat_alloc_cluster_spec envOK fmp st (st.fat^[m - 1] cl) af p.1 p.2 halloc
  have heM2 : CL_FIRST ≤ st.fat^[m - 1] cl ∧ st.fat^[m - 1] cl < fmp.last_cluster :=
    hvalid (m - 1) (by omega)
  rw [if_neg (show ¬(st.fat^[m - 1] cl = 0) by omega)] at hcs
  obtain ⟨hc1, hc2⟩ := hsane p.1 hcfree
  rw [hst0, fat_set_cluster_e_envOK, Res.bind_ok] at hloop2
  set st1 : St :=
    ⟨fun x => if x = st.fat^[m - 1] cl then p.1 &&& fmp.fat_mask else st.fat x, st.free_scan⟩
    with hst1
  have hst1fat : ∀ x, st1.fat x = if x = st.fat^[m - 1] cl then p.1 else st.fat x := by
    intro x
    rw [hst1]
    show (if x = st.fat^[m - 1] cl then p.1 &&& fmp.fat_mask else st.fat x) = _
    rw [hmask.and_id hc2]
  have hp1pos : ¬(p.1 = CL_FREE) := by omega
  have hsane1 : ∀ x, st1.fat x = CL_FREE → CL_FIRST ≤ x ∧ x < fmp.last_cluster := by
    intro x hx
    rw [hst1fat] at hx
    by_cases hxc : x = st.fat^[m - 1] cl
    · rw [if_pos hxc] at hx
      exact absurd hx hp1pos
    · rw [if_neg hxc] at hx
      exact hsane x hx
  have hfree1 : st1.fat p.1 = CL_FREE := by
    rw [hst1fat, if_neg hcs]
    exact hcfree
  obtain ⟨ns, hlen, hflag, hlast, hnd, hmem, hlinks, hframe, hlastfree, -⟩ :=
    fat_expand_file_loop_grow fmp af hmask (n - m - 1) st1 p.1 r hsane1 hc1 hc2 hfree1 hloop2
  rw [hflag, if_pos (show (true = true) from rfl), eofWriteDiscard_envOK] at hfin
  injection hfin with hpair
  injection hpair with hst2 hc0
  subst hc0
  refine ⟨rfl, ?_⟩
  -- every element of the appended segment was free in st (and is in range)
  have hsuffix_st : ∀ x ∈ p.1 :: ns, x < fmp.last_cluster ∧ st.fat x = CL_FREE := by
    intro x hx
    rcases List.mem_cons.mp hx with hh | hh
    · subst hh
      exact ⟨hc2, hcfree⟩
    · obtain ⟨-, b2, hf⟩ := hmem x hh
      rw [hst1fat] at hf
      by_cases hxe : x = st.fat^[m - 1] cl
      · rw [if_pos hxe] at hf
        exact absurd hf hp1pos
      · rw [if_neg hxe] at hf
        exact ⟨b2, hf⟩
  -- the entries of the first m chain clusters are not free in st
  have hEnotfree : ∀ i, i < m → ¬(st.fat (st.fat^[i] cl) = CL_FREE) := by
    intro i hi
    rw [← Function.iterate_succ_apply' st.fat i cl]
    simp only [Nat.succ_eq_add_one]
    by_cases him : i + 1 < m
    · have := (hvalid (i + 1) him).1
      omega
    · have hieq : i + 1 = m := by omega
      rw [hieq]
      omega
  have hEnotin : ∀ i, i < m → st.fat^[i] cl ∉ p.1 :: ns := by
    intro i hi hmem2
    exact hEnotfree i hi (hsuffix_st _ hmem2).2
  have hlastin := listLast_mem p.1 ns
  -- st2 as a function
  have hfat1 : ∀ x, st2.fat x = if x = listLast p.1 ns then fmp.fat_eof else r.1.fat x := by
    intro x
    rw [← hst2, ← hlast]
    show (if x = r.2.1 then fmp.fat_eof &&& fmp.fat_mask else r.1.fat x) = _
    rw [hmask.and_eof]
  -- links of the first m chain clusters are preserved in st2
  have hprefix_link : ∀ i, i + 1 < m → st2.fat (st.fat^[i] cl) = st.fat^[i + 1] cl := by
    intro i hi
    rw [hfat1, if_neg (by
      intro hh
      exact hEnotin i (by omega) (by rw [hh]; exact hlastin))]
    rw [hframe _ (hEnotin i (by omega))]
    rw [hst1fat, if_neg (by
      intro hh
      have := hinj i (m - 1) (by omega) (by omega) hh
      omega)]
    rw [← Function.iterate_succ_apply' st.fat i cl]
  have hlink_m : st2.fat (st.fat^[m - 1] cl) = p.1 := by
    rw [hfat1, if_neg (by
      intro hh
      exact hEnotin (m - 1) (by omega) (by rw [hh]; exact hlastin))]
    rw [hframe _ (hEnotin (m - 1) (by omega))]
    rw [hst1fat, if_pos rfl]
  have hprefix_iter : ∀ i, i < m → st2.fat^[i] cl = st.fat^[i] cl := by
    intro i
    induction i with
    | zero => intro hi; simp
    | succ jj ihp =>
      intro hi
      rw [Function.iterate_succ_apply', Function.iterate_succ_apply']
      rw [ihp (by omega)]
      exact (hprefix_link jj (by omega)).trans (Function.iterate_succ_apply' st.fat jj cl)
  have hm_iter : st2.fat^[m] cl = p.1 := by
    rw [show m = (m - 1) + 1 by omega, Function.iterate_succ_apply']
    rw [hprefix_iter (m - 1) (by omega)]
    exact hlink_m
  obtain ⟨hget, heofend⟩ := chain_after_eof_write fmp r.1.fat p.1 ns hnd hlinks st2.fat hfat1
  have hlenL : (p.1 :: ns).length = n - m := by
    simp [hlen]
    omega
  have hsuffix_iter : ∀ j (hj : j < (p.1 :: ns).length),
      st2.fat^[m + j] cl = (p.1 :: ns).get ⟨j, hj⟩ := by
    intro j hj
    rw [show m + j = j + m by omega, Function.iterate_add_apply, hm_iter]
    exact hget j hj
  refine ⟨⟨?_, ?_, ?_⟩, hprefix_iter, ?_⟩
  · intro i hi
    by_cases him : i < m
    · rw [hprefix_iter i him]
      have := (hvalid i him).2
      omega
    · have hrw : st2.fat^[i] cl = (p.1 :: ns).get ⟨i - m, by omega⟩ := by
        have h2 := hsuffix_iter (i - m) (by omega)
        rw [show m + (i - m) = i by omega] at h2
        exact h2
      rw [hrw]
      have := (hsuffix_st _ (List.get_mem (p.1 :: ns) (i - m) (by omega))).1
      omega
  · intro i iq hi hq heq
    by_cases him : i < m <;> by_cases hqm : iq < m
    · rw [hprefix_iter i him, hprefix_iter iq hqm] at heq
      exact hinj i iq him hqm heq
    · rw [hprefix_iter i him] at heq
      rw [show iq = m + (iq - m) by omega] at heq
      rw [hsuffix_iter (iq - m) (by omega)] at heq
      exact absurd ((hsuffix_st _ (heq ▸ List.get_mem (p.1 :: ns) (iq - m) (by omega))).2)
        (hEnotfree i him)
    · rw [hprefix_iter iq hqm] at heq
      rw [show i = m + (i - m) by omega] at heq
      rw [hsuffix_iter (i - m) (by omega)] at heq
      exact absurd ((hsuffix_st _ (heq.symm ▸ List.get_mem (p.1 :: ns) (i - m) (by omega))).2)
        (hEnotfree iq hqm)
    · rw [show i = m + (i - m) by omega, hsuffix_iter (i - m) (by omega)] at heq
      rw [show iq = m + (iq - m) by omega, hsuffix_iter (iq - m) (by omega)] at heq
      have := congrArg Fin.val ((List.Nodup.get_inj_iff hnd).mp heq)
      simp at this
      omega
  · rw [show n = ((p.1 :: ns).length) + m by omega, Function.iterate_add_apply, hm_iter]
    exact heofend
  · intro i hmi hin
    rw [show i = m + (i - m) by omega, hsuffix_iter (i - m) (by omega)]
    exact (hsuffix_st _ (List.get_mem (p.1 :: ns) (i - m) (by omega))).2

/-- C6: fat_expand_file growth, all sector transfers succeeding. First part:
on an empty file (cluster argument CL_FREE) whose size needs n clusters, a
successful run produces a chain of exactly n pairwise distinct clusters
terminated by an end-of-chain value, all of them free beforehand (freshly
allocated). Second part: re-expanding an existing well-formed m-cluster
chain (1 ≤ m < n) returns the same first cluster, leaves the first m chain
positions unchanged, and appends exactly n - m clusters, each free
beforehand, the whole forming an n-cluster terminated chain. -/
theorem C6_expand_file_chain_growth :
    (∀ (fmp : Fatfsmount) (st : St) (size n af : Nat) (st2 : St) (c0 : Nat),
      MaskOK fmp →
      (∀ x, st.fat x = CL_FREE → CL_FIRST ≤ x ∧ x < fmp.last_cluster) →
      (size + fmp.cluster_size - 1) / fmp.cluster_size = n → 1 ≤ n →
      fat_expand_file envOK fmp st CL_FREE size af = .ok (st2, c0) →
      ChainN fmp st2.fat c0 n ∧ (∀ i, i < n → st.fat (st2.fat^[i] c0) = CL_FREE)) ∧
    (∀ (fmp : Fatfsmount) (st : St) (cl size m n af : Nat) (st2 : St) (c0 : Nat),
      MaskOK fmp →
      (∀ x, st.fat x = CL_FREE → CL_FIRST ≤ x ∧ x < fmp.last_cluster) →
      (size + fmp.cluster_size - 1) / fmp.cluster_size = n →
      1 ≤ m → m < n →
      (∀ i, i < m → CL_FIRST ≤ st.fat^[i] cl ∧ st.fat^[i] cl < fmp.last_cluster) →
      (∀ i q, i < m → q < m → st.fat^[i] cl = st.fat^[q] cl → i = q) →
      fmp.fat_eof ≤ st.fat^[m] cl →
      fat_expand_file envOK fmp st cl size af = .ok (st2, c0) →
      c0 = cl ∧ ChainN fmp st2.fat cl n ∧
        (∀ i, i < m → st2.fat^[i] cl = st.fat^[i] cl) ∧
        (∀ i, m ≤ i → i < n → st.fat (st2.fat^[i] cl) = CL_FREE)) :=
  ⟨fun fmp st size n af st2 c0 h1 h2 h3 h4 h5 =>
      expand_file_empty_spec fmp st size n af st2 c0 h1 h2 h3 h4 h5,
    fun fmp st cl size m n af st2 c0 h1 h2 h3 h4 h5 h6 h7 h8 h9 =>
      expand_file_grow_spec fmp st cl size m n af st2 c0 h1 h2 h3 h4 h5 h6 h7 h8 h9⟩

/-- FAT with free clusters exactly 3..9 (well-formed for fmpE). -/
def stW6 : St := ⟨fun c => if 3 ≤ c ∧ c < 10 then 0 else 1, 2⟩

/-- FAT holding the 2-cluster chain 3 -> 4 -> 0xffff, free clusters exactly
5..9 (well-formed for fmpE). -/
def stW6b : St :=
  ⟨fun c => if c = 3 then 4 else if c = 4 then 65535 else if 5 ≤ c ∧ c < 10 then 0 else 1, 2⟩

/-- Witness for C6: a concrete empty-file run (1024 bytes, 2 clusters) and a
concrete re-expansion run (chain 3 -> 4 grown to 4 clusters). -/
theorem C6_expand_file_chain_growth_witness :
    (∃ st2 c0, fat_expand_file envOK fmpE stW6 CL_FREE 1024 10 = .ok (st2, c0) ∧
      ChainN fmpE st2.fat c0 2 ∧ (∀ i, i < 2 → stW6.fat (st2.fat^[i] c0) = CL_FREE)) ∧
    (∃ st2 c0, fat_expand_file envOK fmpE stW6b 3 2048 10 = .ok (st2, c0) ∧
      c0 = 3 ∧ ChainN fmpE st2.fat 3 4 ∧
        (∀ i, i < 2 → st2.fat^[i] 3 = stW6b.fat^[i] 3) ∧
        (∀ i, 2 ≤ i → i < 4 → stW6b.fat (st2.fat^[i] 3) = CL_FREE)) := by
  have hmaskE : MaskOK fmpE := ⟨16, by decide⟩
  constructor
  · have hsaneW : ∀ x, stW6.fat x = CL_FREE → CL_FIRST ≤ x ∧ x < fmpE.last_cluster := by
      intro x hx
      show 2 ≤ x ∧ x < 10
      by_cases hb : 3 ≤ x ∧ x < 10
      · omega
      · exact absurd hx (by simp [stW6, CL_FREE, hb])
    refine ⟨_, _, rfl, ?_⟩
    exact C6_expand_file_chain_growth.1 fmpE stW6 1024 2 10 _ _ hmaskE hsaneW (by decide)
      (by decide) rfl
  · have hsaneWb : ∀ x, stW6b.fat x = CL_FREE → CL_FIRST ≤ x ∧ x < fmpE.last_cluster := by
      intro x hx
      show 2 ≤ x ∧ x < 10
      simp only [stW6b] at hx
      split_ifs at hx with h1 h2 h3
      · omega
      · omega
      · omega
      · exact absurd hx (by decide)
    refine ⟨_, _, rfl, ?_⟩
    exact C6_expand_file_chain_growth.2 fmpE stW6b 3 2048 2 4 10 _ _ hmaskE hsaneWb (by decide)
      (by decide) (by decide) (by decide)
      (by intro i q hi hq; interval_cases i <;> interval_cases q <;> decide)
      (by decide) rfl

/-! ## Node layer (src/fatfs_node.c): directory records, lookup, enumeration,
rewrite.

Directory I/O is modelled at record granularity: a sector holds DIR_PER_SEC
32-byte records, dir_buf is a slot-indexed record buffer, and every call to
the sector transfer primitives appends an operation to an explicit trace, so
that read-only behaviour (C10) and failure before any write (C7) are facts
about the I/O actually issued, visible in the trace. -/

/-- Modelled from the spec: directory records per sector, SEC_SIZE / 32. -/
def DIR_PER_SEC : Nat := 16

/-- Modelled from the spec: the subdirectory bit of the 1-byte attribute
mask (the standard FAT value 0x10). -/
def FA_SUBDIR : Nat := 16

/-- Modelled from the spec: the volume-label bit of the 1-byte attribute
mask (the standard FAT value 0x08). -/
def FA_VOLID : Nat := 8

/-- Modelled from the spec: the all-ones 32-bit value __U32_MAX, used as the
no-backing-sector sentinel address of synthesized root entries. -/
def U32_MAX : Nat := 4294967295

/-- Modelled from the spec: first sector of a data cluster, data region
start plus sec_per_cl sectors for every cluster past CL_FIRST. -/
def cl_to_sec (fmp : Fatfsmount) (cl : Nat) : Nat :=
  fmp.data_start + (cl - CL_FIRST) * fmp.sec_per_cl

/-- struct fat_dirent, the 32-byte on-disk directory record (layout modelled
from the spec): 11 name bytes (indexed 0..10), attribute mask, time, date,
starting cluster, file size. -/
structure fat_dirent where
  name : Nat → Nat
  attr : Nat
  time : Nat
  date : Nat
  cluster : Nat
  size : Nat

/-- IS_EMPTY(de): first name byte 0x00 marks end of directory. -/
def IS_EMPTY (de : fat_dirent) : Bool := de.name 0 == 0

/-- IS_DELETED(de): first name byte 0xe5 marks a deleted slot. -/
def IS_DELETED (de : fat_dirent) : Bool := de.name 0 == 229

/-- IS_VOL(de): the volume-label attribute bit is set. -/
def IS_VOL (de : fat_dirent) : Bool := (de.attr &&& FA_VOLID) != 0

/-- struct fatfs_node: a copy of one directory record plus its on-disk
address, sector number and byte offset within that sector. -/
structure fatfs_node where
  dirent : fat_dirent
  sector : Nat
  offset : Nat

/-- One directory-layer sector transfer: a read of a sector, or a write of a
sector together with the record buffer written. -/
inductive SecOp where
  | rd : Nat → SecOp
  | wr : Nat → (Nat → fat_dirent) → SecOp

/-- True for reads; writes are the only transfers that change the disk. -/
def SecOp.isRead : SecOp → Bool
  | .rd _ => true
  | .wr _ _ => false

/-- The trace holds no write. -/
def noWrite (t : List SecOp) : Bool := t.all SecOp.isRead

/-- Replay a trace against disk contents (sector to slot to record): reads
leave the disk unchanged, a write replaces the sector written. -/
def applyTrace (d : Nat → Nat → fat_dirent) : List SecOp → Nat → Nat → fat_dirent
  | [] => d
  | .rd _ :: t => applyTrace d t
  | .wr s b :: t => applyTrace (fun x => if x = s then b else d x) t

/-- Per-sector fault and content model of the node layer: readErr s
(writeErr s) is the errno of a faulting transfer of directory sector s (none
on success), sect the on-disk directory records, fat and fatReadErr the
stored FAT entries and the fault model of their reads (the same entry
abstraction as IOEnv and St at the FAT layer). -/
structure NodeEnv where
  readErr : Nat → Option Nat
  writeErr : Nat → Option Nat
  sect : Nat → Nat → fat_dirent
  fat : Nat → Nat
  fatReadErr : Nat → Option Nat

/-- fat_read_dirent (src/fatfs_node.c:41-46): one-sector read of directory
records into dir_buf; a faulting transfer returns its errno. The trace
records the read. -/
def fat_read_dirent (env : NodeEnv) (sec : Nat) : Res (Nat → fat_dirent) × List SecOp :=
  match env.readErr sec with
  | some e => (.fail e, [.rd sec])
  | none => (.ok (env.sect sec), [.rd sec])

/-- fat_write_dirent (src/fatfs_node.c:51-56): one-sector write of dir_buf;
a faulting transfer returns its errno. The trace records the write. -/
def fat_write_dirent (env : NodeEnv) (sec : Nat) (buf : Nat → fat_dirent) :
    Res Unit × List SecOp :=
  (match env.writeErr sec with
   | some e => .fail e
   | none => .ok (), [.wr sec buf])

/-- fat_next_cluster as called by the node layer (src/fatfs_fat.c:121-152
through the entry abstraction of fat_next_cluster_e): reads the FAT
sector(s) holding cluster cl's entry - two on a FAT12 border entry, one
otherwise, all of them reads - and yields the stored successor or the
fault's errno. -/
def fat_next_cluster_t (env : NodeEnv) (fmp : Fatfsmount) (cl : Nat) :
    Res Nat × List SecOp :=
  (match env.fatReadErr cl with
   | some e => .fail e
   | none => .ok (env.fat cl),
   if fatBorder fmp cl then [.rd (fatSec fmp cl), .rd (fatSec fmp cl + 1)]
   else [.rd (fatSec fmp cl)])

/-- The slot scan of fat_lookup_dirent (src/fatfs_node.c:80-97) over the
DIR_PER_SEC records of the loaded sector: fail ENOENT at an end-of-directory
record, succeed with the record, its sector and byte offset 32 i at the
first record that is no volume label and matches (cmp stands for the pure
collaborator !fat_compare_name against the converted name), fail EAGAIN when
the sector is exhausted. i is the slot, k the slots left. -/
def lookup_scan (buf : Nat → fat_dirent) (sec : Nat) (cmp : fat_dirent → Bool) :
    Nat → Nat → Res fatfs_node
  | _, 0 => .fail EAGAIN
  | i, k + 1 =>
    let de := buf i
    if IS_EMPTY de then .fail ENOENT
    else if !IS_VOL de && cmp de then .ok ⟨de, sec, 32 * i⟩
    else lookup_scan buf sec cmp (i + 1) k

/-- fat_lookup_dirent (src/fatfs_node.c:67-98): read the sector (a fault's
errno propagates), then scan its records. -/
def fat_lookup_dirent (env : NodeEnv) (sec : Nat) (cmp : fat_dirent → Bool) :
    Res fatfs_node × List SecOp :=
  match fat_read_dirent env sec with
  | (.ok buf, t) => (lookup_scan buf sec cmp 0 DIR_PER_SEC, t)
  | (.fail e, t) => (.fail e, t)
  | (.out, t) => (.out, t)

/-- The root-directory loop of fatfs_lookup_node (src/fatfs_node.c:132-136):
sectors root_start..data_start-1 in order, each left on any outcome but
EAGAIN; k is the number of sectors left, ENOENT past the last one (line
153). -/
def lookup_root (env : NodeEnv) (cmp : fat_dirent → Bool) :
    Nat → Nat → Res fatfs_node × List SecOp
  | _, 0 => (.fail ENOENT, [])
  | sec, k + 1 =>
    match fat_lookup_dirent env sec cmp with
    | (.ok v, t) => (.ok v, t)
    | (.out, t) => (.out, t)
    | (.fail e, t) =>
      if e = EAGAIN then
        let r := lookup_root env cmp (sec + 1) k
        (r.1, t ++ r.2)
      else (.fail e, t)

/-- The per-cluster sector loop of fatfs_lookup_node (src/fatfs_node.c:
141-147): i sectors of the cluster left, each left on any outcome but
EAGAIN, EAGAIN when the cluster is exhausted. -/
def lookup_sectors (env : NodeEnv) (cmp : fat_dirent → Bool) :
    Nat → Nat → Res fatfs_node × List SecOp
  | _, 0 => (.fail EAGAIN, [])
  | sec, i + 1 =>
    match fat_lookup_dirent env sec cmp with
    | (.ok v, t) => (.ok v, t)
    | (.out, t) => (.out, t)
    | (.fail e, t) =>
      if e = EAGAIN then
        let r := lookup_sectors env cmp (sec + 1) i
        (r.1, t ++ r.2)
      else (.fail e, t)

/-- The sub-directory chain walk of fatfs_lookup_node (src/fatfs_node.c:
139-151), with fuel: while cl is no end-of-chain value, scan its sec_per_cl
sectors and step to the successor cluster; ENOENT when the chain ends. -/
def lookup_sub (env : NodeEnv) (fmp : Fatfsmount) (cmp : fat_dirent → Bool) :
    Nat → Nat → Res fatfs_node × List SecOp
  | _, 0 => (.out, [])
  | cl, fuel + 1 =>
    if IS_EOFCL fmp cl then (.fail ENOENT, [])
    else
      match lookup_sectors env cmp (cl_to_sec fmp cl) fmp.sec_per_cl with
      | (.ok v, t) => (.ok v, t)
      | (.out, t) => (.out, t)
      | (.fail e, t) =>
        if e = EAGAIN then
          match fat_next_cluster_t env fmp cl with
          | (.ok cl2, t2) =>
            let r := lookup_sub env fmp cmp cl2 fuel
            (r.1, t ++ t2 ++ r.2)
          | (.fail e2, t2) => (.fail e2, t ++ t2)
          | (.out, t2) => (.out, t ++ t2)
        else (.fail e, t)

/-- fatfs_lookup_node (src/fatfs_node.c:108-154): ENOENT for a NULL name
(nameNull), the fixed root sector range when the directory's cluster is
CL_ROOT, the cluster-chain walk otherwise. dirCl is dnp->dirent.cluster of
the directory vnode, cmp the converted-name comparison. -/
def fatfs_lookup_node (env : NodeEnv) (fmp : Fatfsmount) (dirCl : Nat)
    (nameNull : Bool) (cmp : fat_dirent → Bool) (fuel : Nat) :
    Res fatfs_node × List SecOp :=
  if nameNull then (.fail ENOENT, [])
  else if dirCl = CL_ROOT then
    lookup_root env cmp fmp.root_start (fmp.data_start - fmp.root_start)
  else lookup_sub env fmp cmp dirCl fuel

/-- The slot scan of fat_get_dirent (src/fatfs_node.c:178-195): cur is the
running count *index of valid (neither deleted nor volume-label) records;
the record making cur reach target is returned with its address, and the
final cur accompanies EAGAIN so the caller keeps counting into the next
sector. -/
def get_scan (buf : Nat → fat_dirent) (sec target : Nat) :
    Nat → Nat → Nat → Res fatfs_node × Nat
  | cur, _, 0 => (.fail EAGAIN, cur)
  | cur, i, k + 1 =>
    let de := buf i
    if IS_EMPTY de then (.fail ENOENT, cur)
    else if !IS_DELETED de && !IS_VOL de then
      if cur = target then (.ok ⟨de, sec, 32 * i⟩, cur)
      else get_scan buf sec target (cur + 1) (i + 1) k
    else get_scan buf sec target cur (i + 1) k

/-- fat_get_dirent (src/fatfs_node.c:166-196): read the sector (a fault's
errno propagates), then scan; the updated count is returned alongside. -/
def fat_get_dirent (env : NodeEnv) (sec target cur : Nat) :
    (Res fatfs_node × Nat) × List SecOp :=
  match fat_read_dirent env sec with
  | (.ok buf, t) => (get_scan buf sec target cur 0 DIR_PER_SEC, t)
  | (.fail e, t) => ((.fail e, cur), t)
  | (.out, t) => ((.out, cur), t)

/-- The root-directory loop of fatfs_get_node (src/fatfs_node.c:242-246):
sectors root_start..data_start-1 with the count threaded across sectors,
each left on any outcome but EAGAIN, ENOENT past the last sector (line
263). -/
def get_root (env : NodeEnv) (target : Nat) :
    Nat → Nat → Nat → Res fatfs_node × List SecOp
  | _, _, 0 => (.fail ENOENT, [])
  | cur, sec, k + 1 =>
    match fat_get_dirent env sec target cur with
    | ((.ok v, _), t) => (.ok v, t)
    | ((.out, _), t) => (.out, t)
    | ((.fail e, cur2), t) =>
      if e = EAGAIN then
        let r := get_root env target cur2 (sec + 1) k
        (r.1, t ++ r.2)
      else (.fail e, t)

/-- The per-cluster sector loop of fatfs_get_node (src/fatfs_node.c:
251-257), count threaded, EAGAIN with the final count when the cluster is
exhausted. -/
def get_sectors (env : NodeEnv) (target : Nat) :
    Nat → Nat → Nat → (Res fatfs_node × Nat) × List SecOp
  | cur, _, 0 => ((.fail EAGAIN, cur), [])
  | cur, sec, i + 1 =>
    match fat_get_dirent env sec target cur with
    | ((.ok v, cur2), t) => ((.ok v, cur2), t)
    | ((.out, cur2), t) => ((.out, cur2), t)
    | ((.fail e, cur2), t) =>
      if e = EAGAIN then
        let r := get_sectors env target cur2 (sec + 1) i
        (r.1, t ++ r.2)
      else ((.fail e, cur2), t)

/-- The sub-directory chain walk of fatfs_get_node (src/fatfs_node.c:
249-261), with fuel. -/
def get_sub (env : NodeEnv) (fmp : Fatfsmount) (target : Nat) :
    Nat → Nat → Nat → Res fatfs_node × List SecOp
  | _, _, 0 => (.out, [])
  | cur, cl, fuel + 1 =>
    if IS_EOFCL fmp cl then (.fail ENOENT, [])
    else
      match get_sectors env target cur (cl_to_sec fmp cl) fmp.sec_per_cl with
      | ((.ok v, _), t) => (.ok v, t)
      | ((.out, _), t) => (.out, t)
      | ((.fail e, cur2), t) =>
        if e = EAGAIN then
          match fat_next_cluster_t env fmp cl with
          | (.ok cl2, t2) =>
            let r := get_sub env fmp target cur2 cl2 fuel
            (r.1, t ++ t2 ++ r.2)
          | (.fail e2, t2) => (.fail e2, t ++ t2)
          | (.out, t2) => (.out, t ++ t2)
        else (.fail e, t)

/-- The synthesized . and .. records of the root directory (src/fatfs_node.c
:222-240): dots name bytes 0x2e padded with spaces, subdirectory attribute,
the directory's own cluster, zero time and date; the size field and the
node's offset stay whatever the caller's node already held (the C code
leaves them unassigned), and the sector is the U32_MAX no-backing-sector
sentinel. -/
def synthNode (np0 : fatfs_node) (dots cl : Nat) : fatfs_node :=
  ⟨⟨fun i => if i < dots then 46 else 32, FA_SUBDIR, 0, 0, cl, np0.dirent.size⟩,
   U32_MAX, np0.offset⟩

/-- fatfs_get_node (src/fatfs_node.c:205-264): for the root directory,
indices 0 and 1 are the synthesized . and .. records and real records are
enumerated with target index idx - 2; a sub directory walks its chain with
the raw index. dirCl is dnp->dirent.cluster of the directory vnode, np0 the
caller's node (an out parameter in C). -/
def fatfs_get_node (env : NodeEnv) (fmp : Fatfsmount) (np0 : fatfs_node)
    (dirCl idx fuel : Nat) : Res fatfs_node × List SecOp :=
  if dirCl = CL_ROOT then
    if idx = 0 then (.ok (synthNode np0 1 dirCl), [])
    else if idx = 1 then (.ok (synthNode np0 2 dirCl), [])
    else get_root env (idx - 2) 0 fmp.root_start (fmp.data_start - fmp.root_start)
  else get_sub env fmp idx 0 dirCl fuel

/-- fatfs_put_node (src/fatfs_node.c:370-384): read the sector recorded in
the node (a fault's errno propagates before anything is written), overwrite
the node's 32-byte slot - np->offset is always 32 times a slot index - with
the node's record, and write the sector back. -/
def fatfs_put_node (env : NodeEnv) (np : fatfs_node) : Res Unit × List SecOp :=
  match fat_read_dirent env np.sector with
  | (.ok buf, t) =>
    let buf2 := fun i => if i = np.offset / 32 then np.dirent else buf i
    let r := fat_write_dirent env np.sector buf2
    (r.1, t ++ r.2)
  | (.fail e, t) => (.fail e, t)
  | (.out, t) => (.out, t)

/-- noWrite distributes over trace concatenation. -/
theorem noWrite_append (t1 t2 : List SecOp) :
    noWrite (t1 ++ t2) = (noWrite t1 && noWrite t2) := by
  simp [noWrite, List.all_append]

/-- Replaying a write-free trace leaves the disk contents unchanged. -/
theorem applyTrace_noWrite (d : Nat → Nat → fat_dirent) :
    ∀ t : List SecOp, noWrite t = true → applyTrace d t = d := by
  intro t
  induction t with
  | nil => intro h; rfl
  | cons op t ih =>
    intro ht
    cases op with
    | rd s =>
      simp only [noWrite, List.all_cons, Bool.and_eq_true] at ht
      exact ih ht.2
    | wr s b => simp [noWrite, SecOp.isRead] at ht

/-- The trace of a directory-sector read is the read alone. -/
theorem fat_read_dirent_noWrite (env : NodeEnv) (sec : Nat) :
    noWrite (fat_read_dirent env sec).2 = true := by
  unfold fat_read_dirent
  cases env.readErr sec <;> rfl

/-- The trace of a FAT-entry read holds only reads. -/
theorem fat_next_cluster_t_noWrite (env : NodeEnv) (fmp : Fatfsmount) (cl : Nat) :
    noWrite (fat_next_cluster_t env fmp cl).2 = true := by
  unfold fat_next_cluster_t
  cases fatBorder fmp cl <;> simp [noWrite, SecOp.isRead]

/-- fat_lookup_dirent issues only its sector read. -/
theorem fat_lookup_dirent_noWrite (env : NodeEnv) (sec : Nat) (cmp : fat_dirent → Bool) :
    noWrite (fat_lookup_dirent env sec cmp).2 = true := by
  have h := fat_read_dirent_noWrite env sec
  unfold fat_lookup_dirent
  rcases hr : fat_read_dirent env sec with ⟨a, t⟩
  rw [hr] at h
  cases a <;> exact h

/-- One-step equation of the root lookup loop. -/
theorem lookup_root_succ (env : NodeEnv) (cmp : fat_dirent → Bool) (sec k : Nat) :
    lookup_root env cmp sec (k + 1) =
      match fat_lookup_dirent env sec cmp with
      | (.ok v, t) => (.ok v, t)
      | (.out, t) => (.out, t)
      | (.fail e, t) =>
        if e = EAGAIN then
          let r := lookup_root env cmp (sec + 1) k
          (r.1, t ++ r.2)
        else (.fail e, t) := rfl

/-- The root lookup loop issues only reads. -/
theorem lookup_root_noWrite (env : NodeEnv) (cmp : fat_dirent → Bool) :
    ∀ k sec, noWrite (lookup_root env cmp sec k).2 = true := by
  intro k
  induction k with
  | zero => intro sec; rfl
  | succ k ih =>
    intro sec
    have h := fat_lookup_dirent_noWrite env sec cmp
    rw [lookup_root_succ]
    split
    next v t heq => rw [heq] at h; exact h
    next t heq => rw [heq] at h; exact h
    next e t heq =>
      rw [heq] at h
      by_cases he : e = EAGAIN
      · rw [if_pos he]
        show noWrite (t ++ (lookup_root env cmp (sec + 1) k).2) = true
        rw [noWrite_append, h, ih (sec + 1)]; rfl
      · rw [if_neg he]
        exact h

/-- One-step equation of the per-cluster lookup sector loop. -/
theorem lookup_sectors_succ (env : NodeEnv) (cmp : fat_dirent → Bool) (sec i : Nat) :
    lookup_sectors env cmp sec (i + 1) =
      match fat_lookup_dirent env sec cmp with
      | (.ok v, t) => (.ok v, t)
      | (.out, t) => (.out, t)
      | (.fail e, t) =>
        if e = EAGAIN then
          let r := lookup_sectors env cmp (sec + 1) i
          (r.1, t ++ r.2)
        else (.fail e, t) := rfl

/-- The per-cluster lookup sector loop issues only reads. -/
theorem lookup_sectors_noWrite (env : NodeEnv) (cmp : fat_dirent → Bool) :
    ∀ i sec, noWrite (lookup_sectors env cmp sec i).2 = true := by
  intro i
  induction i with
  | zero => intro sec; rfl
  | succ i ih =>
    intro sec
    have h := fat_lookup_dirent_noWrite env sec cmp
    rw [lookup_sectors_succ]
    split
    next v t heq => rw [heq] at h; exact h
    next t heq => rw [heq] at h; exact h
    next e t heq =>
      rw [heq] at h
      by_cases he : e = EAGAIN
      · rw [if_pos he]
        show noWrite (t ++ (lookup_sectors env cmp (sec + 1) i).2) = true
        rw [noWrite_append, h, ih (sec + 1)]; rfl
      · rw [if_neg he]
        exact h

/-- One-step equation of the lookup chain walk. -/
theorem lookup_sub_succ (env : NodeEnv) (fmp : Fatfsmount) (cmp : fat_dirent → Bool)
    (cl fuel : Nat) :
    lookup_sub env fmp cmp cl (fuel + 1) =
      if IS_EOFCL fmp cl then (.fail ENOENT, [])
      else
        match lookup_sectors env cmp (cl_to_sec fmp cl) fmp.sec_per_cl with
        | (.ok v, t) => (.ok v, t)
        | (.out, t) => (.out, t)
        | (.fail e, t) =>
          if e = EAGAIN then
            match fat_next_cluster_t env fmp cl with
            | (.ok cl2, t2) =>
              let r := lookup_sub env fmp cmp cl2 fuel
              (r.1, t ++ t2 ++ r.2)
            | (.fail e2, t2) => (.fail e2, t ++ t2)
            | (.out, t2) => (.out, t ++ t2)
          else (.fail e, t) := rfl

/-- The lookup chain walk issues only reads. -/
theorem lookup_sub_noWrite (env : NodeEnv) (fmp : Fatfsmount) (cmp : fat_dirent → Bool) :
    ∀ fuel cl, noWrite (lookup_sub env fmp cmp cl fuel).2 = true := by
  intro fuel
  induction fuel with
  | zero => intro cl; rfl
  | succ fuel ih =>
    intro cl
    have h := lookup_sectors_noWrite env cmp fmp.sec_per_cl (cl_to_sec fmp cl)
    have h2 := fat_next_cluster_t_noWrite env fmp cl
    rw [lookup_sub_succ]
    split
    next => rfl
    next =>
      split
      next v t heq => rw [heq] at h; exact h
      next t heq => rw [heq] at h; exact h
      next e t heq =>
        rw [heq] at h
        by_cases he : e = EAGAIN
        · rw [if_pos he]
          split
          next cl2 t2 hn =>
            rw [hn] at h2
            show noWrite (t ++ t2 ++ (lookup_sub env fmp cmp cl2 fuel).2) = true
            rw [noWrite_append, noWrite_append, h, h2, ih cl2]; rfl
          next e2 t2 hn =>
            rw [hn] at h2
            show noWrite (t ++ t2) = true
            rw [noWrite_append, h, h2]; rfl
          next t2 hn =>
            rw [hn] at h2
            show noWrite (t ++ t2) = true
            rw [noWrite_append, h, h2]; rfl
        · rw [if_neg he]
          exact h

/-- fatfs_lookup_node issues only reads. -/
theorem fatfs_lookup_node_noWrite (env : NodeEnv) (fmp : Fatfsmount) (dirCl : Nat)
    (nameNull : Bool) (cmp : fat_dirent → Bool) (fuel : Nat) :
    noWrite (fatfs_lookup_node env fmp dirCl nameNull cmp fuel).2 = true := by
  unfold fatfs_lookup_node
  cases nameNull with
  | true => rfl
  | false =>
    rw [if_neg (by simp)]
    by_cases hc : dirCl = CL_ROOT
    · rw [if_pos hc]
      exact lookup_root_noWrite env cmp (fmp.data_start - fmp.root_start) fmp.root_start
    · rw [if_neg hc]
      exact lookup_sub_noWrite env fmp cmp fuel dirCl

/-- fat_get_dirent issues only its sector read. -/
theorem fat_get_dirent_noWrite (env : NodeEnv) (sec target cur : Nat) :
    noWrite (fat_get_dirent env sec target cur).2 = true := by
  have h := fat_read_dirent_noWrite env sec
  unfold fat_get_dirent
  rcases hr : fat_read_dirent env sec with ⟨a, t⟩
  rw [hr] at h
  cases a <;> exact h

/-- One-step equation of the root enumeration loop. -/
theorem get_root_succ (env : NodeEnv) (target cur sec k : Nat) :
    get_root env target cur sec (k + 1) =
      match fat_get_dirent env sec target cur with
      | ((.ok v, _), t) => (.ok v, t)
      | ((.out, _), t) => (.out, t)
      | ((.fail e, cur2), t) =>
        if e = EAGAIN then
          let r := get_root env target cur2 (sec + 1) k
          (r.1, t ++ r.2)
        else (.fail e, t) := rfl

/-- The root enumeration loop issues only reads. -/
theorem get_root_noWrite (env : NodeEnv) (target : Nat) :
    ∀ k cur sec, noWrite (get_root env target cur sec k).2 = true := by
  intro k
  induction k with
  | zero => intro cur sec; rfl
  | succ k ih =>
    intro cur sec
    have h := fat_get_dirent_noWrite env sec target cur
    rw [get_root_succ]
    split
    next v cur2 t heq => rw [heq] at h; exact h
    next cur2 t heq => rw [heq] at h; exact h
    next e cur2 t heq =>
      rw [heq] at h
      by_cases he : e = EAGAIN
      · rw [if_pos he]
        show noWrite (t ++ (get_root env target cur2 (sec + 1) k).2) = true
        rw [noWrite_append, h, ih cur2 (sec + 1)]; rfl
      · rw [if_neg he]
        exact h

/-- One-step equation of the per-cluster enumeration sector loop. -/
theorem get_sectors_succ (env : NodeEnv) (target cur sec i : Nat) :
    get_sectors env target cur sec (i + 1) =
      match fat_get_dirent env sec target cur with
      | ((.ok v, cur2), t) => ((.ok v, cur2), t)
      | ((.out, cur2), t) => ((.out, cur2), t)
      | ((.fail e, cur2), t) =>
        if e = EAGAIN then
          let r := get_sectors env target cur2 (sec + 1) i
          (r.1, t ++ r.2)
        else ((.fail e, cur2), t) := rfl

/-- The per-cluster enumeration sector loop issues only reads. -/
theorem get_sectors_noWrite (env : NodeEnv) (target : Nat) :
    ∀ i cur sec, noWrite (get_sectors env target cur sec i).2 = true := by
  intro i
  induction i with
  | zero => intro cur sec; rfl
  | succ i ih =>
    intro cur sec
    have h := fat_get_dirent_noWrite env sec target cur
    rw [get_sectors_succ]
    split
    next v cur2 t heq => rw [heq] at h; exact h
    next cur2 t heq => rw [heq] at h; exact h
    next e cur2 t heq =>
      rw [heq] at h
      by_cases he : e = EAGAIN
      · rw [if_pos he]
        show noWrite (t ++ (get_sectors env target cur2 (sec + 1) i).2) = true
        rw [noWrite_append, h, ih cur2 (sec + 1)]; rfl
      · rw [if_neg he]
        exact h

/-- One-step equation of the enumeration chain walk. -/
theorem get_sub_succ (env : NodeEnv) (fmp : Fatfsmount) (target cur cl fuel : Nat) :
    get_sub env fmp target cur cl (fuel + 1) =
      if IS_EOFCL fmp cl then (.fail ENOENT, [])
      else
        match get_sectors env target cur (cl_to_sec fmp cl) fmp.sec_per_cl with
        | ((.ok v, _), t) => (.ok v, t)
        | ((.out, _), t) => (.out, t)
        | ((.fail e, cur2), t) =>
          if e = EAGAIN then
            match fat_next_cluster_t env fmp cl with
            | (.ok cl2, t2) =>
              let r := get_sub env fmp target cur2 cl2 fuel
              (r.1, t ++ t2 ++ r.2)
            | (.fail e2, t2) => (.fail e2, t ++ t2)
            | (.out, t2) => (.out, t ++ t2)
          else (.fail e, t) := rfl

/-- The enumeration chain walk issues only reads. -/
theorem get_sub_noWrite (env : NodeEnv) (fmp : Fatfsmount) (target : Nat) :
    ∀ fuel cur cl, noWrite (get_sub env fmp target cur cl fuel).2 = true := by
  intro fuel
  induction fuel with
  | zero => intro cur cl; rfl
  | succ fuel ih =>
    intro cur cl
    have h := get_sectors_noWrite env target fmp.sec_per_cl cur (cl_to_sec fmp cl)
    have h2 := fat_next_cluster_t_noWrite env fmp cl
    rw [get_sub_succ]
    split
    next => rfl
    next =>
      split
      next v cur2 t heq => rw [heq] at h; exact h
      next cur2 t heq => rw [heq] at h; exact h
      next e cur2 t heq =>
        rw [heq] at h
        by_cases he : e = EAGAIN
        · rw [if_pos he]
          split
          next cl2 t2 hn =>
            rw [hn] at h2
            show noWrite (t ++ t2 ++ (get_sub env fmp target cur2 cl2 fuel).2) = true
            rw [noWrite_append, noWrite_append, h, h2, ih cur2 cl2]; rfl
          next e2 t2 hn =>
            rw [hn] at h2
            show noWrite (t ++ t2) = true
            rw [noWrite_append, h, h2]; rfl
          next t2 hn =>
            rw [hn] at h2
            show noWrite (t ++ t2) = true
            rw [noWrite_append, h, h2]; rfl
        · rw [if_neg he]
          exact h

/-- fatfs_get_node issues only reads. -/
theorem fatfs_get_node_noWrite (env : NodeEnv) (fmp : Fatfsmount) (np0 : fatfs_node)
    (dirCl idx fuel : Nat) :
    noWrite (fatfs_get_node env fmp np0 dirCl idx fuel).2 = true := by
  unfold fatfs_get_node
  by_cases hc : dirCl = CL_ROOT
  · rw [if_pos hc]
    by_cases h0 : idx = 0
    · rw [if_pos h0]; rfl
    · rw [if_neg h0]
      by_cases h1 : idx = 1
      · rw [if_pos h1]; rfl
      · rw [if_neg h1]
        exact get_root_noWrite env (idx - 2) (fmp.data_start - fmp.root_start) 0 fmp.root_start
  · rw [if_neg hc]
    exact get_sub_noWrite env fmp idx fuel 0 dirCl

/-- C10: the lookup and enumeration operations issue only read I/O: for
every fault model and disk contents, geometry, directory cluster, name or
index argument and fuel, the sector-transfer trace of fatfs_lookup_node and
of fatfs_get_node contains no write, and replaying either trace leaves any
disk contents unchanged - whether the call succeeds or fails, the on-disk
FAT and directory contents are unmodified. -/
theorem C10_lookup_get_read_only (env : NodeEnv) (fmp : Fatfsmount)
    (dirCl : Nat) (nameNull : Bool) (cmp : fat_dirent → Bool)
    (np0 : fatfs_node) (idx fuel : Nat) (d : Nat → Nat → fat_dirent) :
    noWrite (fatfs_lookup_node env fmp dirCl nameNull cmp fuel).2 = true ∧
    applyTrace d (fatfs_lookup_node env fmp dirCl nameNull cmp fuel).2 = d ∧
    noWrite (fatfs_get_node env fmp np0 dirCl idx fuel).2 = true ∧
    applyTrace d (fatfs_get_node env fmp np0 dirCl idx fuel).2 = d := by
  have h1 := fatfs_lookup_node_noWrite env fmp dirCl nameNull cmp fuel
  have h2 := fatfs_get_node_noWrite env fmp np0 dirCl idx fuel
  exact ⟨h1, applyTrace_noWrite d _ h1, h2, applyTrace_noWrite d _ h2⟩

/-- C7: a node handle carrying the no-backing-sector sentinel U32_MAX - as
fatfs_get_node synthesizes for the root . and .. entries - cannot be
persisted: on any device of at most U32_MAX sectors, whose block layer
therefore faults the read of the sentinel sector as out of range,
fatfs_put_node returns that fault's errno after the single sector read and
in particular issues no write. -/
theorem C7_put_node_sentinel_fails (env : NodeEnv) (nsec : Nat)
    (np : fatfs_node) (hdev : ∀ s, nsec ≤ s → env.readErr s ≠ none)
    (hn : nsec ≤ U32_MAX) (hs : np.sector = U32_MAX) :
    ∃ e, fatfs_put_node env np = (.fail e, [.rd U32_MAX]) ∧
      noWrite (fatfs_put_node env np).2 = true := by
  have h := hdev np.sector (by rw [hs]; exact hn)
  cases he : env.readErr np.sector with
  | none => exact absurd he h
  | some e =>
    have hread : fat_read_dirent env np.sector = (.fail e, [.rd np.sector]) := by
      unfold fat_read_dirent
      rw [he]
    refine ⟨e, ?_, ?_⟩
    · unfold fatfs_put_node
      rw [hread, hs]
    · unfold fatfs_put_node
      rw [hread]
      rfl

/-- All-zero directory record. -/
def de0 : fat_dirent := ⟨fun _ => 0, 0, 0, 0, 0, 0⟩

/-- A 100-sector device: directory-sector reads of sectors 100 and beyond
fault with EIO, everything else succeeds; uniform contents. -/
def envC7 : NodeEnv :=
  ⟨fun s => if 100 ≤ s then some EIO else none, fun _ => none,
   fun _ _ => de0, fun _ => 0, fun _ => none⟩

/-- A node carrying the no-backing-sector sentinel address, as fatfs_get_node
synthesizes for the root . and .. entries. -/
def npC7 : fatfs_node := ⟨de0, 4294967295, 0⟩

/-- Witness for C7: on the concrete 100-sector device, rewriting the
sentinel node fails and writes nothing. -/
theorem C7_put_node_sentinel_fails_witness :
    ∃ e, fatfs_put_node envC7 npC7 = (.fail e, [.rd U32_MAX]) ∧
      noWrite (fatfs_put_node envC7 npC7).2 = true :=
  C7_put_node_sentinel_fails envC7 100 npC7
    (fun s hs => by simp [envC7, hs]) (by decide) rfl

end FatFS
